import Mathlib

/-!
Verification of the locator-resolution and action-normalization engine of the
Action Recorder web extension (src/content.js, primary variant).

The DOM is shallowly embedded as a flat list of nodes addressed by paths of
child / shadow-child steps; XPath expressions produced by the recorder are
embedded as a small AST (`Locator`) together with a renderer that reproduces
the exact source strings and an evaluator (`evalLoc`) that mirrors
`document.evaluate` on the light DOM (shadow content is invisible to it, and a
string literal containing a double quote makes the expression malformed, so
evaluation raises).
-/

/-- A step of a DOM address: `child i` is the i-th element child, `shadow i`
is the i-th top-level element of the shadow root attached to the host. -/
inductive DStep where
  | child (i : Nat)
  | shadow (i : Nat)
deriving Repr, DecidableEq

abbrev Addr := List DStep

def DStep.isChild : DStep → Bool
  | .child _ => true
  | .shadow _ => false

/-- The observable data of one element, as content.js reads it: `tag` is the
DOM `tagName` (canonical uppercase for HTML), reflected attributes live in
`attrs`, `val` is the live `value` property (`none` = undefined), `ownText`
the text written directly inside the element, `shadowMode` is
`some "open" / some "closed"` when a shadow root is attached, `contentWin`
identifies the content window of an iframe element, and `visible` abstracts
the `getBoundingClientRect` visibility test (layout is not modelled). -/
structure ElemData where
  tag : String := ""
  attrs : List (String × String) := []
  val : Option String := none
  ownText : String := ""
  shadowMode : Option String := none
  contentWin : Option Nat := none
  visible : Bool := true
deriving Repr, DecidableEq, Inhabited

structure DNode where
  addr : Addr
  data : ElemData
deriving Repr, DecidableEq, Inhabited

/-- A document: its element nodes listed in document (preorder) order,
shadow-tree content included. -/
structure Doc where
  nodes : List DNode
deriving Repr, DecidableEq, Inhabited

/-! Kernel-computable counterparts of the string primitives the source uses
(the core versions are compiled with byte-position loops that do not reduce
inside the kernel). -/

def containsChar (s : String) (c : Char) : Bool := s.data.contains c

def startsWithStr (s p : String) : Bool := p.data.isPrefixOf s.data

def toLowerStr (s : String) : String := ⟨s.data.map Char.toLower⟩

def trimStr (s : String) : String :=
  ⟨((s.data.dropWhile Char.isWhitespace).reverse.dropWhile Char.isWhitespace).reverse⟩

/-- Split into maximal whitespace-free words. -/
def splitWsAux : List Char → List Char → List String
  | [], acc => if acc.isEmpty then [] else [⟨acc.reverse⟩]
  | c :: cs, acc =>
    if c.isWhitespace then
      (if acc.isEmpty then [] else [⟨acc.reverse⟩]) ++ splitWsAux cs []
    else splitWsAux cs (c :: acc)

def wordsOf (s : String) : List String := splitWsAux s.data []

def ElemData.getAttr (d : ElemData) (a : String) : Option String :=
  (d.attrs.find? (fun p => decide (p.1 = a))).map (·.2)

def ElemData.attrStr (d : ElemData) (a : String) : String :=
  (d.getAttr a).getD ""

def ElemData.idStr (d : ElemData) : String := d.attrStr "id"
def ElemData.nameStr (d : ElemData) : String := d.attrStr "name"
def ElemData.placeholderStr (d : ElemData) : String := d.attrStr "placeholder"
def ElemData.typeStr (d : ElemData) : String := d.attrStr "type"
def ElemData.classStr (d : ElemData) : String := d.attrStr "class"
def ElemData.tagLower (d : ElemData) : String := toLowerStr d.tag

def childAddrOf (pa a : Addr) : Bool :=
  match a.getLast? with
  | some (.child _) => decide (a.dropLast = pa)
  | _ => false

def shadowChildAddrOf (pa a : Addr) : Bool :=
  match a.getLast? with
  | some (.shadow _) => decide (a.dropLast = pa)
  | _ => false

def Doc.find? (doc : Doc) (a : Addr) : Option ElemData :=
  (doc.nodes.find? (fun n => decide (n.addr = a))).map (·.data)

/-- Element children of an element, in document order. -/
def Doc.childrenOf (doc : Doc) (pa : Addr) : List DNode :=
  doc.nodes.filter (fun n => childAddrOf pa n.addr)

/-- Top-level element children of the shadow root hosted at `pa`. -/
def Doc.shadowChildrenOf (doc : Doc) (pa : Addr) : List DNode :=
  doc.nodes.filter (fun n => shadowChildAddrOf pa n.addr)

/-- `parent.children` for the parent container of `a` (document, element or
shadow root). -/
def Doc.siblings (doc : Doc) (a : Addr) : List DNode :=
  match a.getLast? with
  | none => doc.nodes.filter (fun n => decide (n.addr = ([] : Addr)))
  | some (.child _) => doc.childrenOf a.dropLast
  | some (.shadow _) => doc.shadowChildrenOf a.dropLast

def Doc.sameTagSiblings (doc : Doc) (a : Addr) (tag : String) : List DNode :=
  (doc.siblings a).filter (fun n => decide (n.data.tag = tag))

/-- 1-based position of `a` among its same-tagName siblings
(`siblings.indexOf(current) + 1` in the source). -/
def Doc.sameTagIndex (doc : Doc) (a : Addr) : Nat :=
  match doc.find? a with
  | none => 0
  | some d => ((doc.sameTagSiblings a d.tag).findIdx (fun n => decide (n.addr = a))) + 1

def Doc.sameTagCount (doc : Doc) (a : Addr) : Nat :=
  match doc.find? a with
  | none => 0
  | some d => (doc.sameTagSiblings a d.tag).length

/-- Nodes reachable from the document without crossing a shadow boundary:
exactly what `document.evaluate` can see. -/
def Doc.lightNodes (doc : Doc) : List DNode :=
  doc.nodes.filter (fun n => n.addr.all DStep.isChild)

/-- `b` lies in the light subtree of `a` (itself included): prefix `a`, then
only child steps.  Used for `textContent`. -/
def lightDescOrSelf (a b : Addr) : Bool :=
  decide (b.take a.length = a) && (b.drop a.length).all DStep.isChild

/-- `element.textContent`: all text of the light subtree, document order.
Shadow-tree text is not part of an element's textContent. -/
def Doc.textContent (doc : Doc) (a : Addr) : String :=
  String.join ((doc.nodes.filter (fun n => lightDescOrSelf a n.addr)).map (·.data.ownText))

/-- The framework-generated id test of the source:
`/^(ember|react|ng-|:|[0-9])/`. -/
def isFrameworkId (s : String) : Bool :=
  startsWithStr s "ember" || startsWithStr s "react" || startsWithStr s "ng-" ||
  startsWithStr s ":" ||
  (match s.data with
   | c :: _ => c.isDigit
   | [] => false)

def sqc : Char := '\''
def dqc : Char := '"'

/-- escapeXPathString from the source: unchanged when the string has no
single quote, unchanged when it has no double quote, otherwise every single
quote is replaced by a backslash-quote pair (the double quotes stay). -/
def escapeXPathString (s : String) : String :=
  if !(containsChar s sqc) then s
  else if !(containsChar s dqc) then s
  else ⟨s.data.flatMap (fun c => if c = sqc then ['\\', sqc] else [c])⟩

/-- The XPath expressions content.js generates, as an AST.
`attrEq tag attr v` renders to an attribute-equality expression,
`textEq tag v` to the normalize-space text expression, and `rel` to the
relative fallback path (optionally anchored at an ancestor id). -/
inductive Locator where
  | attrEq (tag attr value : String)
  | textEq (tag value : String)
  | rel (anchor : Option (String × String)) (steps : List (String × Option Nat))
deriving Repr, DecidableEq, Inhabited

def renderStep : String × Option Nat → String
  | (t, none) => t
  | (t, some i) => t ++ "[" ++ toString i ++ "]"

/-- Render a locator to the exact string the source builds. -/
def renderLoc : Locator → String
  | .attrEq t a v => "//" ++ t ++ "[@" ++ a ++ "=\"" ++ v ++ "\"]"
  | .textEq t v => "//" ++ t ++ "[normalize-space()=\"" ++ v ++ "\"]"
  | .rel none steps => "//" ++ String.intercalate "/" (steps.map renderStep)
  | .rel (some (t, i)) steps =>
      String.intercalate "/" (("//" ++ t ++ "[@id=\"" ++ i ++ "\"]") :: steps.map renderStep)

/-- A rendered expression is syntactically broken exactly when a string
literal carries an embedded double quote (the literal is wrapped in double
quotes and XPath 1.0 has no escape for them). -/
def malformedLoc : Locator → Bool
  | .attrEq _ _ v => containsChar v dqc
  | .textEq _ v => containsChar v dqc
  | .rel none _ => false
  | .rel (some (_, i)) _ => containsChar i dqc

/-- XPath normalize-space(): trim and collapse internal whitespace runs. -/
def normalizeSpace (s : String) : String :=
  String.intercalate " " (wordsOf s)

/-- The node test of one step `t` / `t[i]` applied to a candidate list. -/
def stepFilter (doc : Doc) (base : List DNode) (st : String × Option Nat) : List Addr :=
  (base.filter (fun n =>
    decide (n.data.tagLower = st.1) &&
    (match st.2 with
     | none => true
     | some i => decide (doc.sameTagIndex n.addr = i)))).map (·.addr)

/-- One child-axis step `t` or `t[i]` applied to a set of context nodes. -/
def stepEval (doc : Doc) (ctxs : List Addr) (st : String × Option Nat) : List Addr :=
  ctxs.flatMap (fun c => stepFilter doc (doc.childrenOf c) st)

/-- First step of an unanchored relative path `//t` / `//t[i]`:
descendant-or-self over the light DOM, positional predicate relative to the
node's own parent. -/
def startEval (doc : Doc) (st : String × Option Nat) : List Addr :=
  ((doc.lightNodes.filter (fun n =>
      decide (n.data.tagLower = st.1) &&
      (match st.2 with
       | none => true
       | some i => decide (doc.sameTagIndex n.addr = i)))).map (·.addr))

/-- `document.evaluate` on a generated locator: `.error` models the exception
thrown on a malformed expression, `.ok` the snapshot in document order. -/
def evalLoc (doc : Doc) : Locator → Except Unit (List Addr)
  | .attrEq t a v =>
      if containsChar v dqc then .error () else
      .ok ((doc.lightNodes.filter (fun n =>
        decide (n.data.tagLower = t) && decide (n.data.getAttr a = some v))).map (·.addr))
  | .textEq t v =>
      if containsChar v dqc then .error () else
      .ok ((doc.lightNodes.filter (fun n =>
        decide (n.data.tagLower = t) &&
        decide (normalizeSpace (doc.textContent n.addr) = v))).map (·.addr))
  | .rel none [] => .error ()
  | .rel none (st :: rest) => .ok (rest.foldl (stepEval doc) (startEval doc st))
  | .rel (some (t, idv)) steps =>
      if containsChar idv dqc then .error () else
      .ok (steps.foldl (stepEval doc)
        ((doc.lightNodes.filter (fun n =>
          decide (n.data.tagLower = t) &&
          decide (n.data.getAttr "id" = some idv))).map (·.addr)))

/-- isUniqueXPath: evaluate and require exactly one match which is the target
element itself; an evaluation exception is caught and yields false. -/
def isUniqueXPath (doc : Doc) (loc : Locator) (target : Addr) : Bool :=
  match evalLoc doc loc with
  | .error _ => false
  | .ok l => decide (l = [target])

/-- The tag[index] step generated for one ancestor: the position among
same-tag siblings is attached only when there are several. -/
def genStep (doc : Doc) (a : Addr) (d : ElemData) : String × Option Nat :=
  (toLowerStr d.tag, if 1 < doc.sameTagCount a then some (doc.sameTagIndex a) else none)

/-- All ancestors of an address, innermost first, ending with `[]`
(the document element). -/
def ancestry : Addr → List Addr
  | [] => [[]]
  | s :: rest => ((ancestry rest).map (fun p => s :: p)) ++ [[]]

/-- The upward walk of buildRelativeXPath over the ancestor chain: returns
the optional id anchor and the tag[index] steps, topmost step first.  The
walk stops before the document element, at an ancestor with a stable id, or
after recording the step whose parent is a shadow root. -/
def relWalk (doc : Doc) (elemAddr : Addr) : List Addr → Option (String × String) × List (String × Option Nat)
  | [] => (none, [])
  | a :: rest =>
    if a = ([] : Addr) then (none, [])
    else
      match doc.find? a with
      | none => (none, [])
      | some d =>
        let tag := toLowerStr d.tag
        if d.idStr ≠ "" ∧ a ≠ elemAddr ∧ isFrameworkId d.idStr = false then
          (some (tag, d.idStr), [])
        else
          let step := genStep doc a d
          match a.getLast? with
          | some (.shadow _) => (none, [step])
          | _ =>
            let above := relWalk doc elemAddr rest
            (above.1, above.2 ++ [step])

/-- buildRelativeXPath: relative path from the nearest identifiable ancestor
(or from just below the document element / the shadow boundary). -/
def buildRelativeXPath (doc : Doc) (a : Addr) : Locator :=
  let w := relWalk doc a (ancestry a)
  Locator.rel w.1 w.2

/-- The upward walk of generateFullXPath: a tag[index] segment for every
ancestor up to the document element, stopping at a shadow boundary. -/
def fullWalk (doc : Doc) : List Addr → List (String × Nat)
  | [] => []
  | a :: rest =>
    match doc.find? a with
    | none => []
    | some d =>
      let seg := (toLowerStr d.tag, doc.sameTagIndex a)
      match a.getLast? with
      | some (.shadow _) => [seg]
      | _ => (fullWalk doc rest) ++ [seg]

/-- generateFullXPath: absolute position-indexed path, never
uniqueness-verified. -/
def generateFullXPath (doc : Doc) (a : Addr) : String :=
  "/" ++ String.intercalate "/"
    ((fullWalk doc (ancestry a)).map (fun s => s.1 ++ "[" ++ toString s.2 ++ "]"))

def testAttrs : List String :=
  ["data-testid", "data-test-id", "data-cy", "data-test", "data-automation-id", "data-e2e"]

/-- The test-attribute loop of generateXPath step 2. -/
def tryTestAttrs (doc : Doc) (a : Addr) (d : ElemData) (tag : String) : List String → Option Locator
  | [] => none
  | attr :: rest =>
    match d.getAttr attr with
    | some v =>
      if v ≠ "" then
        let cand := Locator.attrEq tag attr v
        if isUniqueXPath doc cand a then some cand else tryTestAttrs doc a d tag rest
      else tryTestAttrs doc a d tag rest
    | none => tryTestAttrs doc a d tag rest

def nlc : Char := '\n'

/-- generateXPath (content.js, primary variant): id, test attributes, name,
aria-label, button/link text, placeholder — each gated by its guard and the
evaluate-and-count uniqueness check — then the unchecked relative fallback. -/
def generateXPath (doc : Doc) (a : Addr) : Option Locator :=
  match doc.find? a with
  | none => none
  | some d =>
    let tag := toLowerStr d.tag
    let idCand := Locator.attrEq tag "id" d.idStr
    if d.idStr ≠ "" ∧ isFrameworkId d.idStr = false ∧ isUniqueXPath doc idCand a = true then
      some idCand
    else match tryTestAttrs doc a d tag testAttrs with
    | some l => some l
    | none =>
      let nameCand := Locator.attrEq tag "name" d.nameStr
      if d.nameStr ≠ "" ∧ isUniqueXPath doc nameCand a = true then some nameCand
      else
        let aria := (d.getAttr "aria-label").getD ""
        let ariaCand := Locator.attrEq tag "aria-label" (escapeXPathString aria)
        if aria ≠ "" ∧ aria.length < 50 ∧ isUniqueXPath doc ariaCand a = true then some ariaCand
        else
          let txt := trimStr (doc.textContent a)
          let txtCand := Locator.textEq tag (escapeXPathString txt)
          if (d.tag = "BUTTON" ∨ d.tag = "A") ∧ txt ≠ "" ∧ txt.length < 40 ∧
              containsChar txt nlc = false ∧ isUniqueXPath doc txtCand a = true then some txtCand
          else
            let phCand := Locator.attrEq tag "placeholder" (escapeXPathString d.placeholderStr)
            if d.placeholderStr ≠ "" ∧ isUniqueXPath doc phCand a = true then some phCand
            else some (buildRelativeXPath doc a)

/-! ## Shadow DOM tracing -/

/-- Number of shadow boundaries above the element (0 = root node is the
document). -/
def shadowCount (a : Addr) : Nat := (a.filter (fun s => !s.isChild)).length

/-- Address of the host of the innermost shadow root containing `a`:
everything strictly before the last shadow step. -/
def hostOf (a : Addr) : Addr :=
  ((a.reverse.dropWhile DStep.isChild).drop 1).reverse

/-- Ancestors of `a` that live in the same innermost shadow root (the chain
generateInnerXPath walks, innermost first). -/
def innerAncestry (a : Addr) : List Addr :=
  (ancestry a).take (a.length - (hostOf a).length)

/-- The upward walk of generateInnerXPath: an id anywhere short-circuits to a
star-id part (dropping everything above it), otherwise tag[index] steps. -/
def innerWalk (doc : Doc) : List Addr → Option String × List (String × Option Nat)
  | [] => (none, [])
  | a :: rest =>
    match doc.find? a with
    | none => (none, [])
    | some d =>
      if d.idStr ≠ "" then (some d.idStr, [])
      else
        let above := innerWalk doc rest
        (above.1, above.2 ++ [genStep doc a d])

/-- generateInnerXPath: the element's path within its innermost shadow root,
as (optional star-id anchor, steps). -/
def generateInnerXPath (doc : Doc) (a : Addr) : Option String × List (String × Option Nat) :=
  innerWalk doc (innerAncestry a)

/-- Render the inner path exactly as the source joins it. -/
def renderInner : Option String × List (String × Option Nat) → String
  | (none, steps) => String.intercalate "/" (steps.map renderStep)
  | (some i, steps) =>
      String.intercalate "/" (("*[@id=\"" ++ i ++ "\"]") :: steps.map renderStep)

/-- One entry of the traced shadow context. -/
structure ShadowEntry where
  hostXPath : Option String
  hostTag : String
  hostId : Option String
  hostClass : Option String
  innerXPath : Option String × List (String × Option Nat)
  shadowMode : String
deriving Repr, DecidableEq, Inhabited

/-- The outward walk of getShadowPath; the fuel is the number of shadow
boundaries, which drops by exactly one per hop to the host. -/
def shadowWalk (doc : Doc) : Nat → Addr → List ShadowEntry
  | 0, _ => []
  | fuel + 1, cur =>
    if shadowCount cur = 0 then []
    else
      let host := hostOf cur
      match doc.find? host with
      | none => []
      | some hd =>
        let entry : ShadowEntry := {
          hostXPath := (generateXPath doc host).map renderLoc
          hostTag := toLowerStr hd.tag
          hostId := if hd.idStr = "" then none else some hd.idStr
          hostClass := if hd.classStr = "" then none else some hd.classStr
          innerXPath := generateInnerXPath doc cur
          shadowMode := hd.shadowMode.getD "open" }
        shadowWalk doc fuel host ++ [entry]

/-- getShadowPath: null unless the element's root node is a shadow root;
otherwise the host chain, outermost host first. -/
def getShadowPath (doc : Doc) (a : Addr) : Option (List ShadowEntry) :=
  if shadowCount a = 0 then none
  else
    let p := shadowWalk doc (shadowCount a) a
    if p.isEmpty then none else some p

/-- Evaluation of an inner path against the shadow root of `host`, child axis
from the root (the path has no leading slashes). -/
def evalInner (doc : Doc) (host : Addr) : Option String × List (String × Option Nat) → List Addr
  | (some i, steps) =>
      steps.foldl (stepEval doc)
        (((doc.shadowChildrenOf host).filter
          (fun n => decide (n.data.getAttr "id" = some i))).map (·.addr))
  | (none, []) => []
  | (none, st :: rest) =>
      rest.foldl (stepEval doc) (stepFilter doc (doc.shadowChildrenOf host) st)

/-! ## Iframe tracing -/

/-- What reading `window.frameElement` yields from inside the frame. -/
structure FrameMeta where
  name : Option String := none
  id : Option String := none
  src : Option String := none
deriving Repr, DecidableEq, Inhabited

/-- One window level of the frame ancestry chain, innermost first.
`parentDoc = none` models `parent.document` raising (cross-origin). -/
structure WinLevel where
  winId : Nat := 0
  frameMeta : Option FrameMeta := none
  parentDoc : Option Doc := none
deriving Repr, Inhabited

/-- One recorded frame descriptor.  The selector / playwrightSelector /
frameId presentation strings of the source are not modelled (no claim
mentions them). -/
structure FrameDescriptor where
  xpath : Option String := none
  fullXPath : Option String := none
  id : Option String := none
  name : Option String := none
  src : Option String := none
  index : Option Nat := none
  crossOrigin : Bool := false
  message : Option String := none
deriving Repr, DecidableEq, Inhabited

/-- `parentDoc.querySelectorAll('iframe, frame')`: document order, light DOM. -/
def frameElems (pdoc : Doc) : List DNode :=
  pdoc.lightNodes.filter (fun n =>
    decide (n.data.tagLower = "iframe") || decide (n.data.tagLower = "frame"))

def orNull (s : String) : Option String := if s = "" then none else some s

/-- The while loop of getIframePath (primary variant): capped at 10 levels,
stops at the top window, breaks with a cross-origin sentinel carrying only
the ordinal depth when `parent.document` raises.  Descriptors are unshifted,
so the result is outermost-first. -/
def iframeWalk : List WinLevel → Nat → List FrameDescriptor
  | [], _ => []
  | lvl :: rest, level =>
    if 10 ≤ level then []
    else
      match lvl.parentDoc with
      | none =>
          [{ crossOrigin := true, message := some "Cross-origin boundary", index := some level }]
      | some pdoc =>
        let ifr := frameElems pdoc
        match ifr.enum.find? (fun p => decide (p.2.data.contentWin = some lvl.winId)) with
        | some (i, n) =>
          let effName := (orNull n.data.nameStr).orElse (fun _ => lvl.frameMeta.bind (·.name))
          let effId := (orNull n.data.idStr).orElse (fun _ => lvl.frameMeta.bind (·.id))
          let effSrc := (orNull (n.data.attrStr "src")).orElse (fun _ => lvl.frameMeta.bind (·.src))
          let desc : FrameDescriptor := {
            xpath := (generateXPath pdoc n.addr).map renderLoc
            fullXPath := some (generateFullXPath pdoc n.addr)
            id := effId
            name := effName
            src := effSrc
            index := some i
            crossOrigin := false }
          iframeWalk rest (level + 1) ++ [desc]
        | none =>
          iframeWalk rest (level + 1) ++ [{ crossOrigin := true, index := some level }]

/-- getIframePath: null for the top window, else the walked path. -/
def getIframePath (chain : List WinLevel) : Option (List FrameDescriptor) :=
  match chain with
  | [] => none
  | _ =>
    let p := iframeWalk chain 0
    if p.isEmpty then none else some p

/-- getFrameIndex: index of the current window among the parent's
iframe/frame elements, null at the top or across a cross-origin parent. -/
def getFrameIndex (chain : List WinLevel) : Option Nat :=
  match chain with
  | [] => none
  | lvl :: _ =>
    match lvl.parentDoc with
    | none => none
    | some pdoc =>
      (frameElems pdoc).findIdx? (fun n => decide (n.data.contentWin = some lvl.winId))

/-- getFrameElementInfo: best-effort frame element metadata, null at top. -/
def getFrameElementInfo (chain : List WinLevel) : Option FrameMeta :=
  match chain with
  | [] => none
  | lvl :: _ => lvl.frameMeta

/-! ## Value extraction and element snapshot -/

/-- Nodes of the shadow tree attached to `host` (what
`element.shadowRoot.querySelector` searches, nested shadows excluded). -/
def inShadowTreeOf (host b : Addr) : Bool :=
  decide (b.take host.length = host) &&
  (match b.drop host.length with
   | DStep.shadow _ :: rest => rest.all DStep.isChild
   | _ => false)

def Doc.shadowDesc (doc : Doc) (host : Addr) : List DNode :=
  doc.nodes.filter (fun n => inShadowTreeOf host n.addr)

/-- `element.shadowRoot.textContent`. -/
def shadowRootText (doc : Doc) (host : Addr) : String :=
  String.join ((doc.shadowDesc host).map (·.data.ownText))

/-- Strict light-DOM descendants (what `element.querySelector` searches). -/
def lightStrictDesc (doc : Doc) (a : Addr) : List DNode :=
  doc.nodes.filter (fun n => lightDescOrSelf a n.addr && decide (n.addr ≠ a))

def isInputSel (d : ElemData) : Bool := decide (d.tag = "INPUT")
def isTextareaSel (d : ElemData) : Bool := decide (d.tag = "TEXTAREA")
def isContentEditableSel (d : ElemData) : Bool :=
  decide (d.getAttr "contenteditable" = some "true")

/-- One selector round of getElementValue's shadow loop: first match of the
selector; its value is returned only when truthy. -/
def shadowSelVal (doc : Doc) (host : Addr) (p : ElemData → Bool) : Option String :=
  match (doc.shadowDesc host).find? (fun n => p n.data) with
  | some n =>
    match n.data.val with
    | some v => if v ≠ "" then some v else none
    | none => none
  | none => none

/-- getElementValue (primary variant): direct value, open-shadow inner input,
custom-element nested input, contenteditable text, else null.  A closed
shadow root is invisible (`element.shadowRoot` is null for closed mode). -/
def getElementValue (doc : Doc) (a : Addr) : Option String :=
  match doc.find? a with
  | none => none
  | some d =>
    let direct : Option String :=
      match d.val with
      | some v => if v ≠ "" then some v else none
      | none => none
    match direct with
    | some v => some v
    | none =>
      let fromShadow : Option String :=
        if d.shadowMode = some "open" then
          (shadowSelVal doc a isInputSel).orElse (fun _ =>
            (shadowSelVal doc a isTextareaSel).orElse (fun _ =>
              shadowSelVal doc a isContentEditableSel))
        else none
      match fromShadow with
      | some v => some v
      | none =>
        let fromCustom : Option String :=
          if containsChar d.tag '-' then
            match (lightStrictDesc doc a).find? (fun n =>
                isInputSel n.data || isTextareaSel n.data) with
            | some n =>
              match n.data.val with
              | some v => if v ≠ "" then some v else none
              | none => none
            | none => none
          else none
        match fromCustom with
        | some v => some v
        | none =>
          if d.getAttr "contenteditable" = some "true" then some (doc.textContent a)
          else none

/-- The immutable element snapshot recorded with every action. -/
structure ElementInfo where
  tag : String
  type : Option String
  id : Option String
  name : Option String
  className : Option String
  text : Option String
  placeholder : Option String
  value : Option String
  href : Option String
  role : Option String
  ariaLabel : Option String
  visible : Bool
  inShadowDOM : Bool
  inIframe : Bool
deriving Repr, DecidableEq, Inhabited

/-- getElementInfo: the snapshot, including the resolved value (note: the
resolved value, not a masked one). -/
def getElementInfo (doc : Doc) (chain : List WinLevel) (a : Addr) : ElementInfo :=
  let d := (doc.find? a).getD default
  { tag := toLowerStr d.tag
    type := orNull d.typeStr
    id := orNull d.idStr
    name := orNull d.nameStr
    className := some d.classStr
    text := orNull ((trimStr (doc.textContent a)).take 100)
    placeholder := orNull d.placeholderStr
    value := getElementValue doc a
    href := orNull (d.attrStr "href")
    role := orNull (d.attrStr "role")
    ariaLabel := orNull (d.attrStr "aria-label")
    visible := d.visible
    inShadowDOM := decide (shadowCount a ≠ 0)
    inIframe := !chain.isEmpty }

/-- getShadowTextContent: value, else first input/textarea/contenteditable
inside an open shadow root (value, else its trimmed text), else the trimmed
shadow-root text, else a nested light input of a custom element, else the
element's own trimmed text. -/
def getShadowTextContent (doc : Doc) (a : Addr) : String :=
  match doc.find? a with
  | none => ""
  | some d =>
    let direct : Option String :=
      match d.val with
      | some v => if v ≠ "" then some v else none
      | none => none
    match direct with
    | some v => v
    | none =>
      let fromShadow : Option String :=
        if d.shadowMode = some "open" then
          let fromInput : Option String :=
            match (doc.shadowDesc a).find? (fun n =>
                isInputSel n.data || isTextareaSel n.data || isContentEditableSel n.data) with
            | some n =>
              let v := match n.data.val with
                | some v => v
                | none => ""
              if v ≠ "" then some v
              else if doc.textContent n.addr ≠ "" then some (trimStr (doc.textContent n.addr))
              else none
            | none => none
          fromInput.orElse (fun _ =>
            let st := trimStr (shadowRootText doc a)
            if st ≠ "" then some st else none)
        else none
      match fromShadow with
      | some v => v
      | none =>
        let fromCustom : Option String :=
          if containsChar d.tag '-' then
            match (lightStrictDesc doc a).find? (fun n =>
                isInputSel n.data || isTextareaSel n.data) with
            | some n =>
              match n.data.val with
              | some v => if v ≠ "" then some v else none
              | none => none
            | none => none
          else none
        match fromCustom with
        | some v => v
        | none => trimStr (doc.textContent a)

/-- The assertion-mode selector list of getShadowInnerElement, in priority
order. -/
def assertionSelPreds : List (ElemData → Bool) :=
  [ fun d => decide (d.tag = "INPUT") && !(decide (d.getAttr "type" = some "hidden")),
    fun d => decide (d.tag = "TEXTAREA"),
    fun d => decide (d.getAttr "contenteditable" = some "true"),
    fun d => decide (d.tag = "SELECT"),
    fun d => decide (d.tag = "BUTTON"),
    fun d => decide (d.getAttr "role" = some "textbox"),
    fun d => decide (d.getAttr "role" = some "button") ]

/-- getShadowInnerElement: the first interactive element inside an open
shadow root, else the element itself. -/
def getShadowInnerElement (doc : Doc) (a : Addr) : Addr :=
  match doc.find? a with
  | none => a
  | some d =>
    if d.shadowMode = some "open" then
      (assertionSelPreds.findSome? (fun p =>
        ((doc.shadowDesc a).find? (fun n => p n.data)).map (·.addr))).getD a
    else a

/-! ## Description synthesis and action assembly -/

/-- The auxiliary data object passed to recordAction (spread into the
action). -/
structure AData where
  value : Option String := none
  checked : Option Bool := none
  key : Option String := none
  text : Option String := none
  assertionType : Option String := none
deriving Repr, DecidableEq, Inhabited

/-- generateDescription (primary variant). -/
def generateDescription (doc : Doc) (a : Addr) (type : String) (data : AData) : String :=
  let d := (doc.find? a).getD default
  let tag := toLowerStr d.tag
  let text := (trimStr (doc.textContent a)).take 30
  let ariaLabel := d.attrStr "aria-label"
  let placeholder := d.placeholderStr
  let nm := d.nameStr
  let idv := d.idStr
  let elemVal := (d.val).getD ""
  let value :=
    match data.value with
    | some v => if v ≠ "" then v else elemVal
    | none => elemVal
  let target :=
    if text ≠ "" ∧ text.length < 30 then text
    else if ariaLabel ≠ "" then ariaLabel
    else if placeholder ≠ "" then placeholder ++ " field"
    else if nm ≠ "" then nm ++ " field"
    else if idv ≠ "" then "#" ++ idv
    else tag
  if type = "click" then
    if tag = "button" ∨ d.attrStr "role" = "button" then target ++ " Button"
    else if tag = "a" then target ++ " Link"
    else if tag = "input" ∧ (d.typeStr = "checkbox" ∨ d.typeStr = "radio") then
      target ++ " " ++ d.typeStr
    else target
  else if type = "input" then
    let masked := if d.typeStr = "password" then "****" else value
    "\"" ++ masked ++ "\" on " ++ target
  else if type = "select" then "\"" ++ value ++ "\" from " ++ target
  else if type = "check" then
    if data.checked = some true then "Checked " ++ target else "Unchecked " ++ target
  else if type = "keypress" then data.key.getD "" ++ " on " ++ target
  else if type = "assertion" then target
  else target

/-- Inner-element summary attached to shadow assertions. -/
structure InnerElemInfo where
  xpath : Option String
  tag : Option String
  id : Option String
  value : Option String
deriving Repr, DecidableEq, Inhabited

/-- The canonical ActionRec record emitted through the transport.  The
shadowAssertionNote advisory string of the source is presentation only and
not modelled. -/
structure ActionRec where
  type : String
  xpath : Option String
  fullXPath : String
  element : ElementInfo
  iframe : Option (List FrameDescriptor)
  frameIndex : Option Nat
  frameElement : Option FrameMeta
  shadow : Option (List ShadowEntry)
  description : String
  value : Option String := none
  checked : Option Bool := none
  key : Option String := none
  text : Option String := none
  assertionType : Option String := none
  expectedValue : Option String := none
  textContent : Option String := none
  shadowInnerElement : Option InnerElemInfo := none
deriving Repr, DecidableEq, Inhabited

/-- The content script's mutable module state.  `docListeners` and
`shadowObservers` abstract the attached listener set and the structural
observer list. -/
structure RecState where
  isRecording : Bool := false
  isAssertionMode : Bool := false
  assertionType : String := "element"
  pendingInput : Option Addr := none
  lastAction : Option (String × Option String) := none
  lastActionTime : Nat := 0
  docListeners : Bool := false
  shadowObservers : Nat := 0
deriving Repr, DecidableEq, Inhabited

/-- The ambient page environment of one content-script instance: its
document and its window ancestry chain (empty = top window). -/
structure Env where
  doc : Doc
  chain : List WinLevel := []
deriving Repr, Inhabited

def indicatorId : String := "__action-recorder-indicator"

/-- Ancestors reachable by `element.closest` (same tree: the chain stops at
the innermost shadow boundary). -/
def sameTreeAncestry (a : Addr) : List Addr :=
  if shadowCount a = 0 then ancestry a
  else (ancestry a).take (a.length - (hostOf a).length)

/-- The recorder-UI guard of recordAction: the element or a same-tree
ancestor is the injected indicator element. -/
def hitsIndicator (doc : Doc) (a : Addr) : Bool :=
  (sameTreeAncestry a).any (fun p =>
    match doc.find? p with
    | some d => decide (d.idStr = indicatorId)
    | none => false)

/-- `targetElement.value || (targetElement.textContent || '').trim()`. -/
def elemValOrText (doc : Doc) (t : Addr) : String :=
  let d := (doc.find? t).getD default
  match d.val with
  | some v => if v ≠ "" then v else trimStr (doc.textContent t)
  | none => trimStr (doc.textContent t)

/-- recordAssertion (primary variant): always emits one assertion action and
exits assertion mode as a side effect. -/
def recordAssertion (env : Env) (s : RecState) (a : Addr) : RecState × List ActionRec :=
  if s.isRecording = false then (s, [])
  else
    let doc := env.doc
    let targetElement := getShadowInnerElement doc a
    let shadowPath := getShadowPath doc a
    let textValue :=
      match shadowPath with
      | some _ => getShadowTextContent doc a
      | none => elemValOrText doc targetElement
    let shadowInnerValue :=
      match shadowPath with
      | some _ => if targetElement ≠ a then elemValOrText doc targetElement else ""
      | none => ""
    let finalValue := if shadowInnerValue ≠ "" then shadowInnerValue else textValue
    let td := (doc.find? targetElement).getD default
    let act : ActionRec := {
      type := "assertion"
      assertionType := some s.assertionType
      xpath := (generateXPath doc a).map renderLoc
      fullXPath := generateFullXPath doc a
      element := getElementInfo doc env.chain a
      iframe := getIframePath env.chain
      frameIndex := getFrameIndex env.chain
      frameElement := getFrameElementInfo env.chain
      shadow := shadowPath
      shadowInnerElement :=
        match shadowPath with
        | some _ => some {
            xpath := (generateXPath doc targetElement).map renderLoc
            tag := some (toLowerStr td.tag)
            id := orNull td.idStr
            value := match td.val with
              | some v => orNull v
              | none => none }
        | none => none
      textContent := if s.assertionType = "text" then some (finalValue.take 200) else none
      expectedValue := if s.assertionType = "text" then some (finalValue.take 200) else none
      description := generateDescription doc a "assertion" { assertionType := some s.assertionType } }
    ({ s with isAssertionMode := false }, [act])

/-- recordAction (primary variant): recorder-UI guard, assertion reroute,
locator synthesis, 300ms deduplication on (type, xpath), assembly, emit. -/
def recordAction (env : Env) (s : RecState) (type : String) (el : Option Addr)
    (data : AData) (now : Nat) : RecState × List ActionRec :=
  if s.isRecording = false then (s, [])
  else match el with
  | none => (s, [])
  | some a =>
    if hitsIndicator env.doc a then (s, [])
    else if s.isAssertionMode ∧ type = "click" then recordAssertion env s a
    else
      let doc := env.doc
      let xpath := (generateXPath doc a).map renderLoc
      let dup :=
        match s.lastAction with
        | some la =>
            decide (la.1 = type) && decide (la.2 = xpath) &&
            decide (now - s.lastActionTime < 300)
        | none => false
      if dup then (s, [])
      else
        let base : ActionRec := {
          type := type
          xpath := xpath
          fullXPath := generateFullXPath doc a
          element := getElementInfo doc env.chain a
          iframe := getIframePath env.chain
          frameIndex := getFrameIndex env.chain
          frameElement := getFrameElementInfo env.chain
          shadow := getShadowPath doc a
          description := generateDescription doc a type data
          value := data.value
          checked := data.checked
          key := data.key
          text := data.text
          assertionType := data.assertionType }
        let act :=
          if (type = "input" ∨ type = "change") ∧ (base.value = none ∨ base.value = some "") then
            { base with value := some (getShadowTextContent doc a) }
          else base
        ({ s with lastAction := some (type, xpath), lastActionTime := now }, [act])

/-- flushPendingInput: commit the buffered text entry (passwords masked to
the fixed redaction string) through recordAction, then clear the buffer. -/
def flushPendingInput (env : Env) (s : RecState) (now : Nat) : RecState × List ActionRec :=
  match s.pendingInput with
  | none => (s, [])
  | some a =>
    let d := (env.doc.find? a).getD default
    let v0 := getElementValue env.doc a
    let v := if d.typeStr = "password" then some "****" else v0
    let r := recordAction env s "input" (some a) { value := some (v.getD "") } now
    ({ r.1 with pendingInput := none }, r.2)

/-- handleInput: buffer (do not emit) a text input event on INPUT/TEXTAREA. -/
def handleInput (s : RecState) (doc : Doc) (el : Option Addr) : RecState :=
  if s.isRecording = false then s
  else match el with
  | none => s
  | some a =>
    match doc.find? a with
    | none => s
    | some d =>
      if d.tag = "INPUT" ∨ d.tag = "TEXTAREA" then { s with pendingInput := some a } else s

def enterAssertionMode (s : RecState) (t : Option String) : RecState :=
  { s with isAssertionMode := true, assertionType := t.getD "element" }

def exitAssertionMode (s : RecState) : RecState :=
  { s with isAssertionMode := false }

def startRecording (s : RecState) : RecState :=
  if s.isRecording then s
  else { s with isRecording := true, docListeners := true,
                shadowObservers := s.shadowObservers + 1 }

/-- stopRecording, primary variant (content.js lines 948-962): stops, resets
assertion mode, detaches listeners and disconnects observers.  It does NOT
flush the pending input buffer, and nothing is emitted. -/
def stopRecording (s : RecState) : RecState × List ActionRec :=
  if s.isRecording = false then (s, [])
  else ({ s with isRecording := false, isAssertionMode := false,
                 docListeners := false, shadowObservers := 0 }, [])

/-- stopRecording, second variant (content.js lines 2047-2062): flushes the
pending input first (recording still on, so the flush can emit), then stops. -/
def stopRecordingFlushFirst (env : Env) (s : RecState) (now : Nat) : RecState × List ActionRec :=
  if s.isRecording = false then (s, [])
  else
    let r := flushPendingInput env s now
    ({ r.1 with isRecording := false, docListeners := false, shadowObservers := 0 }, r.2)

/-! ## Concrete example pages used by witnesses and counterexamples -/

/-- A page with a single password input that has the value "hunter2". -/
def pwDoc : Doc := ⟨[
  ⟨[], { tag := "HTML" }⟩,
  ⟨[.child 0], { tag := "BODY" }⟩,
  ⟨[.child 0, .child 0],
   { tag := "INPUT", attrs := [("type", "password"), ("name", "pw")], val := some "hunter2" }⟩]⟩

def pwElem : Addr := [.child 0, .child 0]
def pwEnv : Env := { doc := pwDoc }

/-- Recording session with a pending (uncommitted) entry in the password
field. -/
def pwState : RecState := { isRecording := true, pendingInput := some pwElem }

/-- A page with a single identifiable button. -/
def btnDoc : Doc := ⟨[
  ⟨[], { tag := "HTML" }⟩,
  ⟨[.child 0], { tag := "BODY" }⟩,
  ⟨[.child 0, .child 0], { tag := "BUTTON", attrs := [("id", "submit")], ownText := "Go" }⟩]⟩

def btnAddr : Addr := [.child 0, .child 0]
def btnEnv : Env := { doc := btnDoc }

/-- A page where two divs share the id "a": the relative fallback anchored at
that id is ambiguous. -/
def dupIdDoc : Doc := ⟨[
  ⟨[], { tag := "HTML" }⟩,
  ⟨[.child 0], { tag := "BODY" }⟩,
  ⟨[.child 0, .child 0], { tag := "DIV", attrs := [("id", "a")] }⟩,
  ⟨[.child 0, .child 1], { tag := "DIV", attrs := [("id", "a")] }⟩,
  ⟨[.child 0, .child 0, .child 0], { tag := "SPAN" }⟩,
  ⟨[.child 0, .child 1, .child 0], { tag := "SPAN" }⟩]⟩

def dupIdElem : Addr := [.child 0, .child 0, .child 0]

/-! ## Claim C3 -/

set_option maxRecDepth 8000 in
/-- Claim C3 (code bug): on an input action recorded from a password field
the value payload and the description are masked, but the element snapshot
(`getElementInfo` → `action.element.value`) still carries the raw typed
value, so the raw value does appear in the emitted Action. -/
theorem password_raw_value_leaks_in_snapshot :
    (flushPendingInput pwEnv pwState 1000).2.map
        (fun act => (act.value, act.description, act.element.value)) =
      [(some "****", "\"****\" on pw field", some "hunter2")] := by
  decide

/-! ## Claim C5 -/

/-- Claim C5 (code bug): the primary variant's stopRecording never emits
anything — in particular it does not flush a pending text input, which is
silently lost — although it does detach listeners and disconnect observers;
the second variant's stopRecording does flush the pending input first. -/
theorem stopRecording_drops_pending_input :
    (∀ s : RecState, (stopRecording s).2 = []) ∧
    pwState.pendingInput.isSome = true ∧
    (stopRecording pwState).1.pendingInput = some pwElem ∧
    (stopRecording pwState).1.isRecording = false ∧
    (stopRecording pwState).1.docListeners = false ∧
    (stopRecording pwState).1.shadowObservers = 0 ∧
    (stopRecordingFlushFirst pwEnv pwState 1000).2.map (·.value) = [some "****"] := by
  refine ⟨fun s => ?_, by decide, by decide, by decide, by decide, by decide, by decide⟩
  by_cases h : s.isRecording = false <;> simp [stopRecording, h]

/-! ## Shared emission lemma -/

/-- Any action recordAction emits for element `a` carries exactly the
locators synthesized from the document and the element, whatever the state,
event kind, payload or time. -/
theorem recorded_action_locators (env : Env) (s : RecState) (ty : String) (a : Addr)
    (d : AData) (t : Nat) (act : ActionRec)
    (h : act ∈ (recordAction env s ty (some a) d t).2) :
    act.xpath = (generateXPath env.doc a).map renderLoc ∧
    act.fullXPath = generateFullXPath env.doc a := by
  unfold recordAction at h
  split at h
  · simp at h
  · dsimp only at h
    split at h
    · simp at h
    · split at h
      · unfold recordAssertion at h
        split at h
        · simp at h
        · dsimp only at h
          rw [List.mem_singleton] at h
          subst h
          exact ⟨rfl, rfl⟩
      · split at h
        · simp at h
        · split at h
          · rw [List.mem_singleton] at h
            subst h
            exact ⟨rfl, rfl⟩
          · rw [List.mem_singleton] at h
            subst h
            exact ⟨rfl, rfl⟩

/-! ## Claim C8 -/

/-- Claim C8: in assertion mode a click is recorded as exactly one assertion
action (never a click), assertion mode is exited automatically by that single
capture, and recording stays on. -/
theorem assertion_click_records_assertion_and_exits
    (env : Env) (s : RecState) (a : Addr) (d : AData) (t : Nat)
    (hrec : s.isRecording = true) (hmode : s.isAssertionMode = true)
    (hind : hitsIndicator env.doc a = false) :
    (recordAction env s "click" (some a) d t).2.map (·.type) = ["assertion"] ∧
    (recordAction env s "click" (some a) d t).1.isAssertionMode = false ∧
    (recordAction env s "click" (some a) d t).1.isRecording = true := by
  simp [recordAction, recordAssertion, hrec, hmode, hind]

/-- Witness for C8 at a concrete page and state. -/
theorem assertion_click_records_assertion_and_exits_witness :
    (recordAction btnEnv { isRecording := true, isAssertionMode := true, assertionType := "text" }
        "click" (some btnAddr) {} 5).2.map (·.type) = ["assertion"] ∧
    (recordAction btnEnv { isRecording := true, isAssertionMode := true, assertionType := "text" }
        "click" (some btnAddr) {} 5).1.isAssertionMode = false ∧
    (recordAction btnEnv { isRecording := true, isAssertionMode := true, assertionType := "text" }
        "click" (some btnAddr) {} 5).1.isRecording = true :=
  assertion_click_records_assertion_and_exits btnEnv _ btnAddr {} 5 rfl rfl (by decide)

/-! ## Claim C2 -/

/-- Claim C2: starting from a fresh dedup state, two consecutive events of
the same kind whose elements synthesize the same primary locator produce one
action when the second fires strictly less than 300ms after the first (the
second is dropped, no record), and two actions when it fires 300ms or more
after. -/
theorem dedup_law
    (env : Env) (s : RecState) (ty : String) (a1 a2 : Addr)
    (d1 d2 : AData) (t1 t2 : Nat)
    (hrec : s.isRecording = true) (hassert : s.isAssertionMode = false)
    (hlast : s.lastAction = none)
    (hind1 : hitsIndicator env.doc a1 = false) (hind2 : hitsIndicator env.doc a2 = false)
    (hx : generateXPath env.doc a1 = generateXPath env.doc a2) :
    (recordAction env s ty (some a1) d1 t1).2.length = 1 ∧
    (t2 - t1 < 300 →
      (recordAction env (recordAction env s ty (some a1) d1 t1).1 ty (some a2) d2 t2).2 = []) ∧
    (300 ≤ t2 - t1 →
      (recordAction env (recordAction env s ty (some a1) d1 t1).1 ty (some a2) d2 t2).2.length = 1) := by
  refine ⟨?_, ?_, ?_⟩
  · simp [recordAction, hrec, hassert, hlast, hind1]
  · intro hlt
    simp [recordAction, hrec, hassert, hlast, hind1, hind2, ← hx, hlt]
  · intro hge
    have hnlt : ¬ (t2 - t1 < 300) := by omega
    simp [recordAction, hrec, hassert, hlast, hind1, hind2, ← hx, hnlt]

/-- Witness for C2: the same button clicked at t=1000 and t=1100 (dropped)
and at t=1000 and t=1300 (kept). -/
theorem dedup_law_witness :
    (recordAction btnEnv { isRecording := true } "click" (some btnAddr) {} 1000).2.length = 1 ∧
    ((1100 : Nat) - 1000 < 300 →
      (recordAction btnEnv
        (recordAction btnEnv { isRecording := true } "click" (some btnAddr) {} 1000).1
        "click" (some btnAddr) {} 1100).2 = []) ∧
    (300 ≤ (1100 : Nat) - 1000 →
      (recordAction btnEnv
        (recordAction btnEnv { isRecording := true } "click" (some btnAddr) {} 1000).1
        "click" (some btnAddr) {} 1100).2.length = 1) :=
  dedup_law btnEnv _ "click" btnAddr btnAddr {} {} 1000 1100 rfl rfl rfl
    (by decide) (by decide) rfl

/-! ## Claim C9 -/

/-- The Locator Synthesizer's contract output: primary locator and full
path. -/
def synthesize (doc : Doc) (a : Addr) : Option String × String :=
  ((generateXPath doc a).map renderLoc, generateFullXPath doc a)

/-- Claim C9: two recorded actions on the same unchanged element — whatever
the recorder state, event kind, payload or time of either — carry identical
primary and full-path locators, which are exactly the pure synthesis output
of the element and its document: recordAction threads its mutable state
around the synthesizer, never into it. -/
theorem synthesis_pure_and_idempotent
    (env : Env) (s1 s2 : RecState) (ty1 ty2 : String) (a : Addr)
    (d1 d2 : AData) (t1 t2 : Nat) (act1 act2 : ActionRec)
    (h1 : act1 ∈ (recordAction env s1 ty1 (some a) d1 t1).2)
    (h2 : act2 ∈ (recordAction env s2 ty2 (some a) d2 t2).2) :
    act1.xpath = act2.xpath ∧ act1.fullXPath = act2.fullXPath ∧
    (act1.xpath, act1.fullXPath) = synthesize env.doc a := by
  obtain ⟨hx1, hf1⟩ := recorded_action_locators env s1 ty1 a d1 t1 act1 h1
  obtain ⟨hx2, hf2⟩ := recorded_action_locators env s2 ty2 a d2 t2 act2 h2
  refine ⟨hx1.trans hx2.symm, hf1.trans hf2.symm, ?_⟩
  rw [hx1, hf1]
  rfl

/-- The two actions of the C2 witness session, for the C9 witness. -/
def c9Act1 : ActionRec :=
  ((recordAction btnEnv { isRecording := true } "click" (some btnAddr) {} 1000).2).headI

def c9State2 : RecState :=
  { isRecording := true, lastAction := some ("click", none), lastActionTime := 999999 }

def c9Act2 : ActionRec :=
  ((recordAction btnEnv c9State2 "keypress" (some btnAddr) { key := some "Enter" } 5000).2).headI

set_option maxRecDepth 8000 in
/-- Witness for C9: the click action and a much later keypress action on the
same button carry the same locators, equal to the synthesizer output. -/
theorem synthesis_pure_and_idempotent_witness :
    c9Act1.xpath = c9Act2.xpath ∧ c9Act1.fullXPath = c9Act2.fullXPath ∧
    (c9Act1.xpath, c9Act1.fullXPath) = synthesize btnDoc btnAddr :=
  synthesis_pure_and_idempotent btnEnv { isRecording := true } c9State2 "click" "keypress" btnAddr
    {} { key := some "Enter" } 1000 5000 c9Act1 c9Act2 (by decide) (by decide)

/-! ## Claim C10 -/

/-- A malformed expression makes the evaluation raise, and isUniqueXPath's
catch branch turns that into false. -/
theorem malformed_not_unique (doc : Doc) (l : Locator) (a : Addr)
    (hm : malformedLoc l = true) : isUniqueXPath doc l a = false := by
  cases l with
  | attrEq t b v =>
    simp only [malformedLoc] at hm
    simp [isUniqueXPath, evalLoc, hm]
  | textEq t v =>
    simp only [malformedLoc] at hm
    simp [isUniqueXPath, evalLoc, hm]
  | rel anchor steps =>
    cases anchor with
    | none => simp [malformedLoc] at hm
    | some ti =>
      obtain ⟨t, i⟩ := ti
      simp only [malformedLoc] at hm
      simp [isUniqueXPath, evalLoc, hm]

/-- Claim C10: locator synthesis is total — for any element it returns a
result without throwing — and any candidate expression whose rendering is
malformed (an embedded double quote, which the escape helper never removes)
is treated as non-unique by the uniqueness check's catch branch, hence
skipped in favour of later candidates or the relative fallback. -/
theorem locator_synthesis_never_throws (doc : Doc) (a : Addr) (l : Locator)
    (ha : (doc.find? a).isSome = true) (hm : malformedLoc l = true) :
    (generateXPath doc a).isSome = true ∧ isUniqueXPath doc l a = false := by
  refine ⟨?_, malformed_not_unique doc l a hm⟩
  obtain ⟨d, hd⟩ := Option.isSome_iff_exists.mp ha
  unfold generateXPath
  rw [hd]
  dsimp only
  split
  · rfl
  · split
    · rfl
    · split
      · rfl
      · split
        · rfl
        · split
          · rfl
          · split
            · rfl
            · rfl

/-- A page whose button carries an aria-label with an embedded double quote:
the aria-label candidate is malformed. -/
def quoteDoc : Doc := ⟨[
  ⟨[], { tag := "HTML" }⟩,
  ⟨[.child 0], { tag := "BODY" }⟩,
  ⟨[.child 0, .child 0], { tag := "BUTTON", attrs := [("aria-label", "say \"hi\"")] }⟩]⟩

def quoteAddr : Addr := [.child 0, .child 0]

/-- Witness for C10 at the quoted-aria-label page. -/
theorem locator_synthesis_never_throws_witness :
    (generateXPath quoteDoc quoteAddr).isSome = true ∧
    isUniqueXPath quoteDoc (Locator.attrEq "button" "aria-label" "say \"hi\"") quoteAddr = false :=
  locator_synthesis_never_throws quoteDoc quoteAddr
    (Locator.attrEq "button" "aria-label" "say \"hi\"") (by decide) (by decide)

/-! ## Claim C4 -/

/-- The candidate list of the spec's priority order (section 4.1): stable id
(framework-generated ids excluded), the six test attributes in fixed order,
name, short aria-label, short single-line button/link text, placeholder —
each present exactly when its guard holds. -/
def specCandidates (doc : Doc) (a : Addr) : List Locator :=
  match doc.find? a with
  | none => []
  | some d =>
    (if d.idStr ≠ "" ∧ isFrameworkId d.idStr = false then
      [Locator.attrEq (toLowerStr d.tag) "id" d.idStr] else []) ++
    (testAttrs.flatMap (fun attr =>
      match d.getAttr attr with
      | some v => if v ≠ "" then [Locator.attrEq (toLowerStr d.tag) attr v] else []
      | none => [])) ++
    (if d.nameStr ≠ "" then [Locator.attrEq (toLowerStr d.tag) "name" d.nameStr] else []) ++
    (if (d.getAttr "aria-label").getD "" ≠ "" ∧ ((d.getAttr "aria-label").getD "").length < 50 then
      [Locator.attrEq (toLowerStr d.tag) "aria-label"
        (escapeXPathString ((d.getAttr "aria-label").getD ""))] else []) ++
    (if (d.tag = "BUTTON" ∨ d.tag = "A") ∧ trimStr (doc.textContent a) ≠ "" ∧
        (trimStr (doc.textContent a)).length < 40 ∧
        containsChar (trimStr (doc.textContent a)) nlc = false then
      [Locator.textEq (toLowerStr d.tag) (escapeXPathString (trimStr (doc.textContent a)))] else []) ++
    (if d.placeholderStr ≠ "" then
      [Locator.attrEq (toLowerStr d.tag) "placeholder" (escapeXPathString d.placeholderStr)] else [])

/-- The test-attribute loop returns the first unique candidate of its
guard-filtered candidate list. -/
theorem tryTestAttrs_find (doc : Doc) (a : Addr) (d : ElemData) (tag : String) :
    ∀ attrs : List String,
      tryTestAttrs doc a d tag attrs =
        (attrs.flatMap (fun attr =>
          match d.getAttr attr with
          | some v => if v ≠ "" then [Locator.attrEq tag attr v] else []
          | none => [])).find? (fun c => isUniqueXPath doc c a) := by
  intro attrs
  induction attrs with
  | nil => rfl
  | cons attr rest ih =>
    cases h : d.getAttr attr with
    | none => simp [tryTestAttrs, h, ih]
    | some v =>
      by_cases hv : v = ""
      · simp [tryTestAttrs, h, hv, ih]
      · by_cases hu : isUniqueXPath doc (Locator.attrEq tag attr v) a
        · simp [tryTestAttrs, h, hv, hu]
        · simp only [Bool.not_eq_true] at hu
          simp [tryTestAttrs, h, hv, hu, ih]

/-- One guarded candidate stage of generateXPath against the corresponding
guarded singleton of the spec candidate list. -/
theorem stage_step (G : Prop) [Decidable G] (p : Locator → Bool) (c : Locator)
    (restL : Option Locator) (restR : List Locator) (fb : Locator)
    (hrest : restL = some ((restR.find? p).getD fb)) :
    (if G ∧ p c = true then some c else restL) =
      some ((((if G then [c] else []) ++ restR).find? p).getD fb) := by
  by_cases g : G
  · rw [if_pos g]
    by_cases hp : p c = true
    · rw [if_pos ⟨g, hp⟩]
      simp [List.find?_cons_of_pos, hp]
    · rw [if_neg (fun h => hp h.2), hrest]
      simp [List.find?_cons_of_neg, hp]
  · rw [if_neg (fun h => g h.1), if_neg g, hrest]
    simp

/-- The test-attribute loop stage against the append of its candidate list. -/
theorem match_step (L : List Locator) (p : Locator → Bool)
    (restL : Option Locator) (restR : List Locator) (fb : Locator)
    (hrest : restL = some ((restR.find? p).getD fb)) :
    (match L.find? p with
     | some l => some l
     | none => restL) =
      some (((L ++ restR).find? p).getD fb) := by
  cases h : L.find? p with
  | some c => simp [List.find?_append, h, Option.or]
  | none => simp [List.find?_append, h, Option.or, hrest]

/-- The final guarded candidate stage, followed directly by the fallback. -/
theorem stage_last (G : Prop) [Decidable G] (p : Locator → Bool) (c : Locator)
    (fb : Locator) :
    (if G ∧ p c = true then some c else some fb) =
      some (((if G then [c] else []).find? p).getD fb) := by
  by_cases g : G
  · by_cases hp : p c = true
    · rw [if_pos ⟨g, hp⟩, if_pos g]
      simp [List.find?_cons_of_pos, hp]
    · rw [if_neg (fun h => hp h.2), if_pos g]
      simp [List.find?_cons_of_neg, hp]
  · rw [if_neg (fun h => g h.1), if_neg g]
    simp

/-- generateXPath is exactly: the first spec candidate that passes the
evaluate-and-count uniqueness check, else the relative fallback. -/
theorem generateXPath_eq_findCand (doc : Doc) (a : Addr) (d : ElemData)
    (hd : doc.find? a = some d) :
    generateXPath doc a =
      some (((specCandidates doc a).find? (fun c => isUniqueXPath doc c a)).getD
        (buildRelativeXPath doc a)) := by
  unfold generateXPath specCandidates
  rw [hd]
  dsimp only
  rw [tryTestAttrs_find doc a d (toLowerStr d.tag) testAttrs]
  simp only [← and_assoc]
  simp only [List.append_assoc]
  exact stage_step (d.idStr ≠ "" ∧ isFrameworkId d.idStr = false)
    (fun c => isUniqueXPath doc c a)
    (Locator.attrEq (toLowerStr d.tag) "id" d.idStr) _ _ _
    (match_step _ _ _ _ _
      (stage_step (d.nameStr ≠ "") (fun c => isUniqueXPath doc c a)
        (Locator.attrEq (toLowerStr d.tag) "name" d.nameStr) _ _ _
        (stage_step
          ((d.getAttr "aria-label").getD "" ≠ "" ∧
            ((d.getAttr "aria-label").getD "").length < 50)
          (fun c => isUniqueXPath doc c a)
          (Locator.attrEq (toLowerStr d.tag) "aria-label"
            (escapeXPathString ((d.getAttr "aria-label").getD ""))) _ _ _
          (stage_step
            ((((d.tag = "BUTTON" ∨ d.tag = "A") ∧ trimStr (doc.textContent a) ≠ "") ∧
                (trimStr (doc.textContent a)).length < 40) ∧
              containsChar (trimStr (doc.textContent a)) nlc = false)
            (fun c => isUniqueXPath doc c a)
            (Locator.textEq (toLowerStr d.tag) (escapeXPathString (trimStr (doc.textContent a)))) _ _ _
            (stage_last (d.placeholderStr ≠ "") (fun c => isUniqueXPath doc c a)
              (Locator.attrEq (toLowerStr d.tag) "placeholder"
                (escapeXPathString d.placeholderStr))
              (buildRelativeXPath doc a))))))

/-- Claim C4: the synthesizer tries the spec's candidates in strict priority
order — stable id (framework-generated ids excluded), the six test
attributes in fixed order, name scoped to tag, short aria-label, short
single-line button/link text, placeholder — returns the first uniquely
resolving candidate, and only with no unique candidate falls back to the
relative ancestor path. -/
theorem generateXPath_priority_order (doc : Doc) (a : Addr)
    (ha : (doc.find? a).isSome = true) :
    generateXPath doc a =
      some (((specCandidates doc a).find? (fun c => isUniqueXPath doc c a)).getD
        (buildRelativeXPath doc a)) := by
  obtain ⟨d, hd⟩ := Option.isSome_iff_exists.mp ha
  exact generateXPath_eq_findCand doc a d hd

/-- Witness for C4 at the duplicate-id page. -/
theorem generateXPath_priority_order_witness :
    generateXPath dupIdDoc dupIdElem =
      some (((specCandidates dupIdDoc dupIdElem).find?
          (fun c => isUniqueXPath dupIdDoc c dupIdElem)).getD
        (buildRelativeXPath dupIdDoc dupIdElem)) :=
  generateXPath_priority_order dupIdDoc dupIdElem (by decide)

/-! ## Claim C1 -/

set_option maxRecDepth 8000 in
/-- Claim C1 counterexample: on the duplicate-id page the emitted primary
locator (the relative fallback anchored at the non-unique id) is non-null
but resolves to two nodes, so the evaluate-and-count check does not hold for
it. -/
theorem primary_locator_not_always_unique :
    generateXPath dupIdDoc dupIdElem = some (buildRelativeXPath dupIdDoc dupIdElem) ∧
    (generateXPath dupIdDoc dupIdElem).map renderLoc = some "//div[@id=\"a\"]/span" ∧
    (generateXPath dupIdDoc dupIdElem).map (fun l => isUniqueXPath dupIdDoc l dupIdElem) =
      some false ∧
    (generateXPath dupIdDoc dupIdElem).map
        (fun l => (evalLoc dupIdDoc l).toOption.map List.length) =
      some (some 2) := by
  decide

/-- Claim C1 amended: every primary locator that generateXPath produces from
candidate steps 1-6 passes the evaluate-and-count uniqueness check
(isUniqueXPath); only the step-7 relative fallback is returned without that
verification and need not resolve uniquely. -/
theorem candidate_primary_locator_unique (doc : Doc) (a : Addr) (l : Locator)
    (h : generateXPath doc a = some l) (hnf : l ≠ buildRelativeXPath doc a) :
    isUniqueXPath doc l a = true := by
  have ha : (doc.find? a).isSome = true := by
    cases hfd : doc.find? a with
    | none =>
      unfold generateXPath at h
      rw [hfd] at h
      cases h
    | some d => rfl
  obtain ⟨d, hd⟩ := Option.isSome_iff_exists.mp ha
  have heq := generateXPath_eq_findCand doc a d hd
  rw [heq] at h
  injection h with h
  cases hf : (specCandidates doc a).find? (fun c => isUniqueXPath doc c a) with
  | none =>
    rw [hf] at h
    simp at h
    exact absurd h.symm hnf
  | some c =>
    rw [hf] at h
    simp at h
    subst h
    simpa using List.find?_some hf

/-- Witness for the amended C1 at the identifiable button. -/
theorem candidate_primary_locator_unique_witness :
    isUniqueXPath btnDoc (Locator.attrEq "button" "id" "submit") btnAddr = true :=
  candidate_primary_locator_unique btnDoc btnAddr (Locator.attrEq "button" "id" "submit")
    (by decide) (by decide)

/-! ## Claim C6 -/

/-- A frame level whose parent document is reachable and contains an iframe
element whose content window is this window. -/
def levelResolves (lvl : WinLevel) : Bool :=
  match lvl.parentDoc with
  | none => false
  | some pdoc => (frameElems pdoc).any (fun n => decide (n.data.contentWin = some lvl.winId))

theorem enumFrom_find?_isSome (q : DNode → Bool) :
    ∀ (l : List DNode) (k : Nat),
      ((l.enumFrom k).find? (fun x => q x.2)).isSome = l.any q := by
  intro l
  induction l with
  | nil => intro k; rfl
  | cons x xs ih =>
    intro k
    rw [List.enumFrom]
    by_cases hq : q x = true
    · simp [List.find?_cons, hq]
    · simp [List.find?_cons, hq, ih]

theorem enum_find?_isSome (q : DNode → Bool) (l : List DNode) :
    ((l.enum.find? (fun x => q x.2)).isSome) = l.any q :=
  enumFrom_find?_isSome q l 0

/-- A run of resolving levels contributes one found (non-cross-origin)
descriptor per level, appended after whatever the remaining chain yields. -/
theorem iframeWalk_resolving :
    ∀ (pre rest : List WinLevel) (level : Nat),
      (∀ l ∈ pre, levelResolves l = true) → level + pre.length ≤ 10 →
      ∃ ds : List FrameDescriptor,
        iframeWalk (pre ++ rest) level = iframeWalk rest (level + pre.length) ++ ds ∧
        ds.length = pre.length ∧ ∀ d ∈ ds, d.crossOrigin = false := by
  intro pre
  induction pre with
  | nil =>
    intro rest level _ _
    exact ⟨[], by simp, rfl, by simp⟩
  | cons p pre ih =>
    intro rest level hres hlen
    have hp := hres p (List.mem_cons_self p pre)
    have hlvl : ¬ (10 ≤ level) := by
      simp only [List.length_cons] at hlen
      omega
    cases hpd : p.parentDoc with
    | none =>
      rw [levelResolves, hpd] at hp
      cases hp
    | some pdoc =>
      have hany : (frameElems pdoc).any
          (fun n => decide (n.data.contentWin = some p.winId)) = true := by
        rw [levelResolves, hpd] at hp
        exact hp
      have hfs := enum_find?_isSome (fun n => decide (n.data.contentWin = some p.winId))
        (frameElems pdoc)
      rw [hany] at hfs
      obtain ⟨pr, hpr⟩ := Option.isSome_iff_exists.mp hfs
      obtain ⟨i, n⟩ := pr
      obtain ⟨ds, hds, hlen2, hco⟩ :=
        ih rest (level + 1) (fun l hl => hres l (List.mem_cons_of_mem _ hl))
          (by simp only [List.length_cons] at hlen; omega)
      refine ⟨ds ++ [{ xpath := (generateXPath pdoc n.addr).map renderLoc,
                       fullXPath := some (generateFullXPath pdoc n.addr),
                       id := (orNull n.data.idStr).orElse (fun _ => p.frameMeta.bind (·.id)),
                       name := (orNull n.data.nameStr).orElse (fun _ => p.frameMeta.bind (·.name)),
                       src := (orNull (n.data.attrStr "src")).orElse (fun _ => p.frameMeta.bind (·.src)),
                       index := some i, crossOrigin := false, message := none }], ?_, ?_, ?_⟩
      · rw [List.cons_append]
        simp only [iframeWalk]
        rw [if_neg hlvl, hpd]
        dsimp only
        rw [hpr]
        dsimp only
        rw [hds, List.append_assoc]
        simp only [List.length_cons]
        have h2 : level + 1 + pre.length = level + (pre.length + 1) := by omega
        rw [h2]
      · simp [hlen2]
      · intro d hd
        rcases List.mem_append.mp hd with h | h
        · exact hco d h
        · rw [List.mem_singleton] at h
          subst h
          rfl

theorem getIframePath_ne_nil (chain : List WinLevel) (h : chain ≠ []) :
    getIframePath chain =
      (if (iframeWalk chain 0).isEmpty then none else some (iframeWalk chain 0)) := by
  cases chain with
  | nil => exact absurd rfl h
  | cons c chain => rfl

/-- Claim C6 (amended): the frame walk visits successive parent windows until
the top window is reached or 10 levels have been traversed; while every
level's parent document is accessible and contains the matching iframe, one
non-cross-origin descriptor is recorded per level (outermost first); at the
first level where accessing parent.document raises, the exception is not
propagated — the walk records a sentinel descriptor carrying crossOrigin and
only the ordinal depth (all identifying fields null) and terminates at that
boundary, whatever lies above it. -/
theorem frame_walk_sentinel_and_termination :
    (∀ chain : List WinLevel, chain ≠ [] → chain.length ≤ 10 →
      (∀ l ∈ chain, levelResolves l = true) →
      ∃ ds, getIframePath chain = some ds ∧ ds.length = chain.length ∧
        ∀ d ∈ ds, d.crossOrigin = false) ∧
    (∀ (pre : List WinLevel) (lvl : WinLevel) (rest : List WinLevel),
      (∀ l ∈ pre, levelResolves l = true) → pre.length < 10 → lvl.parentDoc = none →
      ∃ ds, getIframePath (pre ++ lvl :: rest) =
          some (({ crossOrigin := true, message := some "Cross-origin boundary",
                   index := some pre.length } : FrameDescriptor) :: ds) ∧
        ds.length = pre.length ∧ ∀ d ∈ ds, d.crossOrigin = false) := by
  constructor
  · intro chain hne hlen hres
    obtain ⟨ds, hds, hlen2, hco⟩ := iframeWalk_resolving chain [] 0
      hres (by omega)
    rw [List.append_nil] at hds
    simp only [iframeWalk, List.nil_append, Nat.zero_add] at hds
    refine ⟨ds, ?_, hlen2, hco⟩
    rw [getIframePath_ne_nil chain hne, hds]
    cases hd : ds with
    | nil =>
      rw [hd] at hlen2
      cases chain with
      | nil => exact absurd rfl hne
      | cons c chain => simp at hlen2
    | cons d ds' => rfl
  · intro pre lvl rest hres hlen hnone
    obtain ⟨ds, hds, hlen2, hco⟩ := iframeWalk_resolving pre (lvl :: rest) 0
      hres (by omega)
    have hwx : iframeWalk (lvl :: rest) (0 + pre.length) =
        [{ crossOrigin := true, message := some "Cross-origin boundary",
           index := some pre.length }] := by
      simp only [iframeWalk]
      rw [if_neg (by omega), hnone]
      simp
    refine ⟨ds, ?_, hlen2, hco⟩
    rw [getIframePath_ne_nil _ (by cases pre <;> simp), hds, hwx]
    rfl

/-- A minimal same-origin parent document holding exactly one iframe whose
content window is window 0. -/
def frameParentDoc : Doc := ⟨[
  ⟨[], { tag := "HTML" }⟩,
  ⟨[.child 0], { tag := "BODY" }⟩,
  ⟨[.child 0, .child 0],
   { tag := "IFRAME", attrs := [("name", "f1")], contentWin := some 0 }⟩]⟩

def sameOriginLevel : WinLevel := { winId := 0, parentDoc := some frameParentDoc }

def crossOriginLevel : WinLevel := { winId := 0, parentDoc := none }

def chain11 : List WinLevel := List.replicate 11 sameOriginLevel

set_option maxRecDepth 20000 in
/-- Claim C6 counterexample: in a same-origin ancestry of depth 11 every
parent is accessible and resolvable, yet the walk stops after 10 levels
without reaching the top window — only 10 of the 11 levels are recorded. -/
theorem frame_walk_stops_before_top :
    chain11.length = 11 ∧ (∀ l ∈ chain11, levelResolves l = true) ∧
    ((getIframePath chain11).getD []).length = 10 := by
  refine ⟨rfl, by decide, ?_⟩
  decide

/-- Witness for the amended C6: a same-origin single-level chain records its
one frame, and a chain whose second hop is cross-origin gets the sentinel at
ordinal depth 1 after the one recorded inner frame. -/
theorem frame_walk_sentinel_and_termination_witness :
    (∃ ds, getIframePath [sameOriginLevel] = some ds ∧ ds.length = 1 ∧
      ∀ d ∈ ds, d.crossOrigin = false) ∧
    (∃ ds, getIframePath [sameOriginLevel, crossOriginLevel] =
        some (({ crossOrigin := true, message := some "Cross-origin boundary",
                 index := some 1 } : FrameDescriptor) :: ds) ∧
      ds.length = 1 ∧ ∀ d ∈ ds, d.crossOrigin = false) :=
  ⟨frame_walk_sentinel_and_termination.1 [sameOriginLevel]
      (by simp) (by decide) (by decide),
   frame_walk_sentinel_and_termination.2 [sameOriginLevel] crossOriginLevel []
      (by decide) (by decide) rfl⟩

/-! ## Claim C7: well-formed documents and step-resolution lemmas -/

/-- Well-formedness of an embedded document: node addresses are distinct,
every ancestor of a node is itself a node, and tag names are stored
canonically (no two nodes whose tags differ only by case). -/
def Doc.WF (doc : Doc) : Prop :=
  (doc.nodes.map (·.addr)).Nodup ∧
  (∀ n ∈ doc.nodes, ∀ p ∈ ancestry n.addr, (doc.find? p).isSome = true) ∧
  (∀ n ∈ doc.nodes, ∀ m ∈ doc.nodes,
    toLowerStr n.data.tag = toLowerStr m.data.tag → n.data.tag = m.data.tag)

instance (doc : Doc) : Decidable doc.WF := by
  unfold Doc.WF
  infer_instance

theorem addr_eq_nil_or_append (l : Addr) : l = [] ∨ ∃ init s, l = init ++ [s] := by
  rcases List.eq_nil_or_concat l with h | ⟨init, s, h⟩
  · exact Or.inl h
  · rw [List.concat_eq_append] at h
    exact Or.inr ⟨init, s, h⟩

theorem find?_addr_of_mem (doc : Doc) (hnd : (doc.nodes.map (·.addr)).Nodup)
    (n : DNode) (hn : n ∈ doc.nodes) : doc.find? n.addr = some n.data := by
  unfold Doc.find?
  cases hf : doc.nodes.find? (fun m => decide (m.addr = n.addr)) with
  | none =>
    have := List.find?_eq_none.mp hf n hn
    simp at this
  | some m =>
    have hma : m.addr = n.addr := by
      have := List.find?_some hf
      simpa using this
    have hmem : m ∈ doc.nodes := List.mem_of_find?_eq_some hf
    have : m = n := List.inj_on_of_nodup_map hnd hmem hn hma
    subst this
    rfl

theorem siblings_nil_case (doc : Doc) (c : Addr) (h : c = []) :
    doc.siblings c = doc.nodes.filter (fun m => decide (m.addr = ([] : Addr))) := by
  subst h
  rfl

theorem siblings_child_case (doc : Doc) (init : Addr) (i : Nat) :
    doc.siblings (init ++ [DStep.child i]) = doc.childrenOf init := by
  unfold Doc.siblings
  rw [List.getLast?_concat]
  dsimp only
  rw [List.dropLast_concat]

theorem siblings_shadow_case (doc : Doc) (init : Addr) (i : Nat) :
    doc.siblings (init ++ [DStep.shadow i]) = doc.shadowChildrenOf init := by
  unfold Doc.siblings
  rw [List.getLast?_concat]
  dsimp only
  rw [List.dropLast_concat]

theorem mem_siblings_self (doc : Doc) (n : DNode) (hn : n ∈ doc.nodes) :
    n ∈ doc.siblings n.addr := by
  rcases addr_eq_nil_or_append n.addr with hnil | ⟨init, s, hcat⟩
  · rw [siblings_nil_case doc n.addr hnil]
    exact List.mem_filter.mpr ⟨hn, by simp [hnil]⟩
  · cases s with
    | child i =>
      rw [hcat, siblings_child_case]
      refine List.mem_filter.mpr ⟨hn, ?_⟩
      unfold childAddrOf
      rw [hcat, List.getLast?_concat]
      simp [List.dropLast_concat]
    | shadow i =>
      rw [hcat, siblings_shadow_case]
      refine List.mem_filter.mpr ⟨hn, ?_⟩
      unfold shadowChildAddrOf
      rw [hcat, List.getLast?_concat]
      simp [List.dropLast_concat]

theorem siblings_eq_of_mem (doc : Doc) (c : Addr) (m : DNode)
    (hm : m ∈ doc.siblings c) : doc.siblings m.addr = doc.siblings c := by
  rcases addr_eq_nil_or_append c with hnil | ⟨init, s, hcat⟩
  · rw [siblings_nil_case doc c hnil] at hm
    have haddr : m.addr = ([] : Addr) := by simpa using (List.mem_filter.mp hm).2
    rw [siblings_nil_case doc m.addr haddr, siblings_nil_case doc c hnil]
  · cases s with
    | child i =>
      rw [hcat, siblings_child_case] at hm
      have hc := (List.mem_filter.mp hm).2
      unfold childAddrOf at hc
      rcases addr_eq_nil_or_append m.addr with hmnil | ⟨minit, s2, hmcat⟩
      · rw [hmnil] at hc
        simp at hc
      · cases s2 with
        | child j =>
          rw [hmcat, List.getLast?_concat] at hc
          simp only [List.dropLast_concat, decide_eq_true_eq] at hc
          rw [hmcat, siblings_child_case, hc, hcat, siblings_child_case]
        | shadow j =>
          rw [hmcat, List.getLast?_concat] at hc
          simp at hc
    | shadow i =>
      rw [hcat, siblings_shadow_case] at hm
      have hc := (List.mem_filter.mp hm).2
      unfold shadowChildAddrOf at hc
      rcases addr_eq_nil_or_append m.addr with hmnil | ⟨minit, s2, hmcat⟩
      · rw [hmnil] at hc
        simp at hc
      · cases s2 with
        | child j =>
          rw [hmcat, List.getLast?_concat] at hc
          simp at hc
        | shadow j =>
          rw [hmcat, List.getLast?_concat] at hc
          simp only [List.dropLast_concat, decide_eq_true_eq] at hc
          rw [hmcat, siblings_shadow_case, hc, hcat, siblings_shadow_case]

theorem siblings_subset_nodes (doc : Doc) (c : Addr) (m : DNode)
    (hm : m ∈ doc.siblings c) : m ∈ doc.nodes := by
  rcases addr_eq_nil_or_append c with hnil | ⟨init, s, hcat⟩
  · rw [siblings_nil_case doc c hnil] at hm
    exact (List.mem_filter.mp hm).1
  · cases s with
    | child i =>
      rw [hcat, siblings_child_case] at hm
      exact (List.mem_filter.mp hm).1
    | shadow i =>
      rw [hcat, siblings_shadow_case] at hm
      exact (List.mem_filter.mp hm).1

theorem siblings_addr_nodup (doc : Doc) (hnd : (doc.nodes.map (·.addr)).Nodup)
    (c : Addr) : ((doc.siblings c).map (·.addr)).Nodup := by
  have hsub : List.Sublist (doc.siblings c) doc.nodes := by
    rcases addr_eq_nil_or_append c with hnil | ⟨init, s, hcat⟩
    · rw [siblings_nil_case doc c hnil]
      exact List.filter_sublist _
    · cases s with
      | child i =>
        rw [hcat, siblings_child_case]
        exact List.filter_sublist _
      | shadow i =>
        rw [hcat, siblings_shadow_case]
        exact List.filter_sublist _
  exact List.Nodup.sublist (hsub.map (·.addr)) hnd

theorem eq_singleton_of_all_eq (L : List DNode) (x : DNode)
    (hx : x ∈ L) (hall : ∀ y ∈ L, y = x) (hnd : (L.map (·.addr)).Nodup) :
    L = [x] := by
  cases L with
  | nil => cases hx
  | cons a L2 =>
    have ha : a = x := hall a (List.mem_cons_self a L2)
    cases L2 with
    | nil => rw [ha]
    | cons b L3 =>
      have hb : b = x := hall b (List.mem_cons_of_mem _ (List.mem_cons_self b L3))
      subst ha
      subst hb
      simp at hnd

theorem length_le_one_eq (L : List DNode) (h : L.length ≤ 1) (x y : DNode)
    (hx : x ∈ L) (hy : y ∈ L) : x = y := by
  cases L with
  | nil => cases hx
  | cons a L2 =>
    cases L2 with
    | nil =>
      rw [List.mem_singleton] at hx hy
      rw [hx, hy]
    | cons b L3 => simp at h

theorem findIdx_addr_eq (S : List DNode) :
    ∀ y c : DNode, y ∈ S → c ∈ S →
      S.findIdx (fun k => decide (k.addr = y.addr)) =
        S.findIdx (fun k => decide (k.addr = c.addr)) →
      y.addr = c.addr := by
  induction S with
  | nil => intro y c hy _ _; cases hy
  | cons s S ih =>
    intro y c hy hc heq
    rw [List.findIdx_cons, List.findIdx_cons] at heq
    by_cases h1 : s.addr = y.addr
    · by_cases h2 : s.addr = c.addr
      · rw [← h1, h2]
      · by_cases h3 : y.addr = c.addr
        · exact h3
        · simp [h1, h2, h3] at heq
    · by_cases h2 : s.addr = c.addr
      · by_cases h3 : y.addr = c.addr
        · exact h3
        · simp [h1, h2, h3, eq_comm] at heq
      · simp only [h1, h2, decide_eq_true_eq, if_neg, cond_eq_if, decide_eq_false_iff_not,
          not_false_eq_true, if_false] at heq
        have hy2 : y ∈ S := by
          rcases List.mem_cons.mp hy with h | h
          · exact absurd (h ▸ rfl) h1
          · exact h
        have hc2 : c ∈ S := by
          rcases List.mem_cons.mp hc with h | h
          · exact absurd (h ▸ rfl) h2
          · exact h
        exact ih y c hy2 hc2 (by omega)

/-- Resolving the generated step of an element against its own sibling list
yields exactly that element: an unindexed step means it is the only same-tag
sibling, an indexed step pins its position. -/
theorem stepFilter_siblings (doc : Doc) (hwf : doc.WF) (cn : DNode)
    (hn : cn ∈ doc.nodes) :
    stepFilter doc (doc.siblings cn.addr) (genStep doc cn.addr cn.data) = [cn.addr] := by
  obtain ⟨hnd, hclosed, htags⟩ := hwf
  have hfind : doc.find? cn.addr = some cn.data := find?_addr_of_mem doc hnd cn hn
  have hcnt : doc.sameTagCount cn.addr =
      (doc.sameTagSiblings cn.addr cn.data.tag).length := by
    unfold Doc.sameTagCount
    rw [hfind]
  have hidx : doc.sameTagIndex cn.addr =
      (doc.sameTagSiblings cn.addr cn.data.tag).findIdx
        (fun k => decide (k.addr = cn.addr)) + 1 := by
    unfold Doc.sameTagIndex
    rw [hfind]
  have hselfS : cn ∈ doc.sameTagSiblings cn.addr cn.data.tag :=
    List.mem_filter.mpr ⟨mem_siblings_self doc cn hn, by simp⟩
  have hLnodup : ∀ p : DNode → Bool,
      (((doc.siblings cn.addr).filter p).map (·.addr)).Nodup := by
    intro p
    exact List.Nodup.sublist
      (List.Sublist.map (fun x => x.addr) (List.filter_sublist (doc.siblings cn.addr)))
      (siblings_addr_nodup doc hnd cn.addr)
  have hcommon : ∀ y ∈ doc.siblings cn.addr,
      y.data.tagLower = toLowerStr cn.data.tag → y.data.tag = cn.data.tag := by
    intro y hy ht
    exact htags y (siblings_subset_nodes doc cn.addr y hy) cn hn ht
  by_cases hc : 1 < doc.sameTagCount cn.addr
  · have hgs : genStep doc cn.addr cn.data =
        (toLowerStr cn.data.tag, some (doc.sameTagIndex cn.addr)) := by
      unfold genStep
      rw [if_pos hc]
    rw [hgs]
    unfold stepFilter
    have hL : (doc.siblings cn.addr).filter
        (fun n => decide (n.data.tagLower = toLowerStr cn.data.tag) &&
          decide (doc.sameTagIndex n.addr = doc.sameTagIndex cn.addr)) = [cn] := by
      apply eq_singleton_of_all_eq _ cn
      · exact List.mem_filter.mpr ⟨mem_siblings_self doc cn hn, by
          simp [ElemData.tagLower]⟩
      · intro y hy
        obtain ⟨hysib, hyp⟩ := List.mem_filter.mp hy
        simp only [Bool.and_eq_true, decide_eq_true_eq] at hyp
        obtain ⟨hyt, hyi⟩ := hyp
        have hymem : y ∈ doc.nodes := siblings_subset_nodes doc cn.addr y hysib
        have htag : y.data.tag = cn.data.tag := hcommon y hysib hyt
        have hfy : doc.find? y.addr = some y.data := find?_addr_of_mem doc hnd y hymem
        have hSy : doc.sameTagSiblings y.addr y.data.tag =
            doc.sameTagSiblings cn.addr cn.data.tag := by
          unfold Doc.sameTagSiblings
          rw [siblings_eq_of_mem doc cn.addr y hysib, htag]
        have hidxy : doc.sameTagIndex y.addr =
            (doc.sameTagSiblings cn.addr cn.data.tag).findIdx
              (fun k => decide (k.addr = y.addr)) + 1 := by
          unfold Doc.sameTagIndex
          rw [hfy]
          dsimp only
          rw [hSy]
        have hyS : y ∈ doc.sameTagSiblings cn.addr cn.data.tag :=
          List.mem_filter.mpr ⟨hysib, by simp [htag]⟩
        have heq : (doc.sameTagSiblings cn.addr cn.data.tag).findIdx
              (fun k => decide (k.addr = y.addr)) =
            (doc.sameTagSiblings cn.addr cn.data.tag).findIdx
              (fun k => decide (k.addr = cn.addr)) := by
          rw [hidxy, hidx] at hyi
          omega
        have haddr : y.addr = cn.addr :=
          findIdx_addr_eq _ y cn hyS hselfS heq
        exact List.inj_on_of_nodup_map hnd hymem hn haddr
      · exact hLnodup _
    rw [hL]
    rfl
  · have hgs : genStep doc cn.addr cn.data = (toLowerStr cn.data.tag, none) := by
      unfold genStep
      rw [if_neg hc]
    rw [hgs]
    unfold stepFilter
    have hL : (doc.siblings cn.addr).filter
        (fun n => decide (n.data.tagLower = toLowerStr cn.data.tag) && true) = [cn] := by
      apply eq_singleton_of_all_eq _ cn
      · exact List.mem_filter.mpr ⟨mem_siblings_self doc cn hn, by
          simp [ElemData.tagLower]⟩
      · intro y hy
        obtain ⟨hysib, hyp⟩ := List.mem_filter.mp hy
        simp only [Bool.and_true, decide_eq_true_eq] at hyp
        have hymem : y ∈ doc.nodes := siblings_subset_nodes doc cn.addr y hysib
        have htag : y.data.tag = cn.data.tag := hcommon y hysib hyp
        have hyS : y ∈ doc.sameTagSiblings cn.addr cn.data.tag :=
          List.mem_filter.mpr ⟨hysib, by simp [htag]⟩
        have hlen : (doc.sameTagSiblings cn.addr cn.data.tag).length ≤ 1 := by
          rw [hcnt] at hc
          omega
        exact length_le_one_eq _ hlen y cn hyS hselfS
      · exact hLnodup _
    rw [hL]
    rfl

theorem hostOf_concat_child (a : Addr) (i : Nat) :
    hostOf (a ++ [DStep.child i]) = hostOf a := by
  unfold hostOf
  rw [List.reverse_append]
  simp [List.dropWhile_cons, DStep.isChild]

theorem hostOf_concat_shadow (a : Addr) (i : Nat) :
    hostOf (a ++ [DStep.shadow i]) = a := by
  unfold hostOf
  rw [List.reverse_append]
  simp [List.dropWhile_cons, DStep.isChild]

theorem shadowCount_concat_child (a : Addr) (i : Nat) :
    shadowCount (a ++ [DStep.child i]) = shadowCount a := by
  unfold shadowCount
  rw [List.filter_append, List.length_append]
  simp [DStep.isChild]

theorem shadowCount_concat_shadow (a : Addr) (i : Nat) :
    shadowCount (a ++ [DStep.shadow i]) = shadowCount a + 1 := by
  unfold shadowCount
  rw [List.filter_append, List.length_append]
  simp [DStep.isChild]

theorem ancestry_cons_eq (a : Addr) (h : a ≠ []) :
    ancestry a = a :: ancestry a.dropLast := by
  induction a with
  | nil => exact absurd rfl h
  | cons s rest ih =>
    cases rest with
    | nil => rfl
    | cons t ts =>
      show ((ancestry (t :: ts)).map (fun p => s :: p)) ++ [[]] = _
      rw [ih (by simp), List.map_cons, List.cons_append]
      rfl

theorem ancestry_concat (a : Addr) (s : DStep) :
    ancestry (a ++ [s]) = (a ++ [s]) :: ancestry a := by
  rw [ancestry_cons_eq _ (by simp), List.dropLast_concat]

theorem hostOf_length_le (a : Addr) : (hostOf a).length ≤ a.length := by
  unfold hostOf
  simp only [List.length_reverse, List.length_drop]
  have h1 : (a.reverse.dropWhile DStep.isChild).length ≤ a.reverse.length :=
    (List.dropWhile_suffix DStep.isChild).sublist.length_le
  rw [List.length_reverse] at h1
  omega

theorem innerAncestry_concat_shadow (a : Addr) (i : Nat) :
    innerAncestry (a ++ [DStep.shadow i]) = [a ++ [DStep.shadow i]] := by
  unfold innerAncestry
  rw [ancestry_concat, hostOf_concat_shadow]
  have : (a ++ [DStep.shadow i]).length - a.length = 1 := by
    rw [List.length_append]
    simp
  rw [this, List.take_succ_cons, List.take_zero]

theorem innerAncestry_concat_child (a : Addr) (i : Nat) :
    innerAncestry (a ++ [DStep.child i]) = (a ++ [DStep.child i]) :: innerAncestry a := by
  unfold innerAncestry
  rw [ancestry_concat, hostOf_concat_child]
  have hle := hostOf_length_le a
  have : (a ++ [DStep.child i]).length - (hostOf a).length =
      (a.length - (hostOf a).length) + 1 := by
    rw [List.length_append]
    simp only [List.length_singleton]
    omega
  rw [this, List.take_succ_cons]

theorem self_mem_ancestry (a : Addr) : a ∈ ancestry a := by
  cases h : a with
  | nil => simp [ancestry]
  | cons s rest =>
    rw [← h, ancestry_cons_eq a (by rw [h]; simp)]
    exact List.mem_cons_self _ _

theorem find?_spec (doc : Doc) (a : Addr) (d : ElemData) (h : doc.find? a = some d) :
    ∃ n ∈ doc.nodes, n.addr = a ∧ n.data = d := by
  unfold Doc.find? at h
  cases hf : doc.nodes.find? (fun m => decide (m.addr = a)) with
  | none => rw [hf] at h; cases h
  | some m =>
    rw [hf] at h
    refine ⟨m, List.mem_of_find?_eq_some hf, ?_, by injection h⟩
    simpa using List.find?_some hf

theorem evalInner_none_append (doc : Doc) (host : Addr)
    (steps : List (String × Option Nat)) (st : String × Option Nat)
    (hne : steps ≠ []) :
    evalInner doc host (none, steps ++ [st]) =
      stepEval doc (evalInner doc host (none, steps)) st := by
  cases steps with
  | nil => exact absurd rfl hne
  | cons s0 srest =>
    show (srest ++ [st]).foldl (stepEval doc) _ = _
    rw [List.foldl_append]
    rfl

theorem innerSteps_ne_nil (doc : Doc) (cur : Addr) (d : ElemData)
    (hfind : doc.find? cur = some d) (hs : shadowCount cur ≠ 0)
    (hanchor : (generateInnerXPath doc cur).1 = none) :
    (generateInnerXPath doc cur).2 ≠ [] := by
  rcases addr_eq_nil_or_append cur with hnil | ⟨init, s, hcat⟩
  · rw [hnil] at hs
    simp [shadowCount] at hs
  · subst hcat
    by_cases hid : d.idStr = ""
    · cases s with
      | child i =>
        unfold generateInnerXPath at hanchor ⊢
        rw [innerAncestry_concat_child] at hanchor ⊢
        simp only [innerWalk] at hanchor ⊢
        rw [hfind] at hanchor ⊢
        dsimp only at hanchor ⊢
        rw [if_neg (by simpa using hid)] at hanchor ⊢
        simp
      | shadow i =>
        unfold generateInnerXPath at hanchor ⊢
        rw [innerAncestry_concat_shadow] at hanchor ⊢
        simp only [innerWalk] at hanchor ⊢
        rw [hfind] at hanchor ⊢
        dsimp only at hanchor ⊢
        rw [if_neg (by simpa using hid)] at hanchor ⊢
        simp
    · exfalso
      cases s with
      | child i =>
        unfold generateInnerXPath at hanchor
        rw [innerAncestry_concat_child] at hanchor
        simp only [innerWalk] at hanchor
        rw [hfind] at hanchor
        dsimp only at hanchor
        rw [if_pos (by simpa using hid)] at hanchor
        cases hanchor
      | shadow i =>
        unfold generateInnerXPath at hanchor
        rw [innerAncestry_concat_shadow] at hanchor
        simp only [innerWalk] at hanchor
        rw [hfind] at hanchor
        dsimp only at hanchor
        rw [if_pos (by simpa using hid)] at hanchor
        cases hanchor

/-- Claim C7's evaluation clause (anchor-free case): an inner path whose
upward walk never short-circuited on an id resolves, by child-axis
evaluation from its own shadow root, to exactly the element it was generated
from. -/
theorem evalInner_roundtrip (doc : Doc) (hwf : doc.WF) :
    ∀ cur : Addr, (doc.find? cur).isSome = true → shadowCount cur ≠ 0 →
      (generateInnerXPath doc cur).1 = none →
      evalInner doc (hostOf cur) (generateInnerXPath doc cur) = [cur] := by
  intro cur
  induction cur using List.reverseRecOn with
  | nil =>
    intro _ hs _
    simp [shadowCount] at hs
  | append_singleton init s ih =>
    intro hfind hs hanchor
    obtain ⟨d, hd⟩ := Option.isSome_iff_exists.mp hfind
    obtain ⟨cn, hcn, hcnaddr, hcndata⟩ := find?_spec doc _ d hd
    have hid : d.idStr = "" := by
      by_contra hid
      cases s with
      | child i =>
        unfold generateInnerXPath at hanchor
        rw [innerAncestry_concat_child] at hanchor
        simp only [innerWalk] at hanchor
        rw [hd] at hanchor
        dsimp only at hanchor
        rw [if_pos (by simpa using hid)] at hanchor
        cases hanchor
      | shadow i =>
        unfold generateInnerXPath at hanchor
        rw [innerAncestry_concat_shadow] at hanchor
        simp only [innerWalk] at hanchor
        rw [hd] at hanchor
        dsimp only at hanchor
        rw [if_pos (by simpa using hid)] at hanchor
        cases hanchor
    cases s with
    | shadow i =>
      have hInner : generateInnerXPath doc (init ++ [DStep.shadow i]) =
          (none, [genStep doc (init ++ [DStep.shadow i]) d]) := by
        unfold generateInnerXPath
        rw [innerAncestry_concat_shadow]
        simp only [innerWalk]
        rw [hd]
        dsimp only
        rw [if_neg (by simpa using hid)]
        simp [innerWalk]
      rw [hInner, hostOf_concat_shadow]
      show stepFilter doc (doc.shadowChildrenOf init) _ = _
      rw [← siblings_shadow_case doc init i]
      have := stepFilter_siblings doc hwf cn hcn
      rw [hcnaddr, hcndata] at this
      exact this
    | child i =>
      have hInner : generateInnerXPath doc (init ++ [DStep.child i]) =
          ((generateInnerXPath doc init).1,
            (generateInnerXPath doc init).2 ++ [genStep doc (init ++ [DStep.child i]) d]) := by
        unfold generateInnerXPath
        rw [innerAncestry_concat_child]
        simp only [innerWalk]
        rw [hd]
        dsimp only
        rw [if_neg (by simpa using hid)]
      have hanch2 : (generateInnerXPath doc init).1 = none := by
        rw [hInner] at hanchor
        exact hanchor
      have hs2 : shadowCount init ≠ 0 := by
        rw [shadowCount_concat_child] at hs
        exact hs
      have hfind2 : (doc.find? init).isSome = true := by
        have hmem : init ∈ ancestry cn.addr := by
          rw [hcnaddr, ancestry_concat]
          exact List.mem_cons_of_mem _ (self_mem_ancestry init)
        exact hwf.2.1 cn hcn init hmem
      obtain ⟨d2, hd2⟩ := Option.isSome_iff_exists.mp hfind2
      have hne : (generateInnerXPath doc init).2 ≠ [] :=
        innerSteps_ne_nil doc init d2 hd2 hs2 hanch2
      have hpair : generateInnerXPath doc init =
          (none, (generateInnerXPath doc init).2) := by
        rw [← hanch2]
      rw [hInner, hostOf_concat_child, hanch2]
      rw [evalInner_none_append doc (hostOf init) _ _ hne]
      rw [← hpair]
      rw [ih hfind2 hs2 hanch2]
      show stepFilter doc (doc.childrenOf init) _ ++ [] = _
      rw [List.append_nil, ← siblings_child_case doc init i]
      have := stepFilter_siblings doc hwf cn hcn
      rw [hcnaddr, hcndata] at this
      exact this

/-- The "current element" chain of getShadowPath's outward walk, outermost
first (each entry is the element whose inner path the corresponding
ShadowEntry records; the last one is the element itself). -/
def shadowCurrents : Nat → Addr → List Addr
  | 0, _ => []
  | fuel + 1, cur =>
    if shadowCount cur = 0 then [] else shadowCurrents fuel (hostOf cur) ++ [cur]

/-- The entry getShadowPath records for one current element. -/
def mkShadowEntry (doc : Doc) (cur : Addr) : ShadowEntry :=
  let hd := (doc.find? (hostOf cur)).getD default
  { hostXPath := (generateXPath doc (hostOf cur)).map renderLoc
    hostTag := toLowerStr hd.tag
    hostId := if hd.idStr = "" then none else some hd.idStr
    hostClass := if hd.classStr = "" then none else some hd.classStr
    innerXPath := generateInnerXPath doc cur
    shadowMode := hd.shadowMode.getD "open" }

theorem hostOf_mem_ancestry (a : Addr) : hostOf a ∈ ancestry a := by
  induction a using List.reverseRecOn with
  | nil => simp [hostOf, ancestry]
  | append_singleton init s ih =>
    cases s with
    | child i =>
      rw [hostOf_concat_child, ancestry_concat]
      exact List.mem_cons_of_mem _ ih
    | shadow i =>
      rw [hostOf_concat_shadow, ancestry_concat]
      exact List.mem_cons_of_mem _ (self_mem_ancestry init)

theorem find?_hostOf_isSome (doc : Doc) (hwf : doc.WF) (a : Addr)
    (ha : (doc.find? a).isSome = true) : (doc.find? (hostOf a)).isSome = true := by
  obtain ⟨d, hd⟩ := Option.isSome_iff_exists.mp ha
  obtain ⟨cn, hcn, hcnaddr, _⟩ := find?_spec doc a d hd
  exact hwf.2.1 cn hcn (hostOf a) (hcnaddr ▸ hostOf_mem_ancestry a)

theorem hostOf_shadowCount (a : Addr) (h : shadowCount a ≠ 0) :
    shadowCount (hostOf a) + 1 = shadowCount a := by
  induction a using List.reverseRecOn with
  | nil => simp [shadowCount] at h
  | append_singleton init s ih =>
    cases s with
    | child i =>
      rw [hostOf_concat_child, shadowCount_concat_child]
      rw [shadowCount_concat_child] at h
      exact ih h
    | shadow i =>
      rw [hostOf_concat_shadow, shadowCount_concat_shadow]

theorem shadowWalk_eq_map (doc : Doc) (hwf : doc.WF) :
    ∀ (fuel : Nat) (cur : Addr), (doc.find? cur).isSome = true →
      shadowWalk doc fuel cur = (shadowCurrents fuel cur).map (mkShadowEntry doc) := by
  intro fuel
  induction fuel with
  | zero => intro cur _; rfl
  | succ fuel ih =>
    intro cur hcur
    by_cases hsc : shadowCount cur = 0
    · simp only [shadowWalk, shadowCurrents, hsc, if_pos]
      rfl
    · have hhost := find?_hostOf_isSome doc hwf cur hcur
      obtain ⟨hd, hhd⟩ := Option.isSome_iff_exists.mp hhost
      simp only [shadowWalk, shadowCurrents, if_neg hsc]
      rw [hhd]
      dsimp only
      rw [ih (hostOf cur) hhost, List.map_append]
      simp only [List.map_cons, List.map_nil]
      unfold mkShadowEntry
      rw [hhd]
      rfl

theorem shadowCurrents_length :
    ∀ (k : Nat) (a : Addr), shadowCount a = k → (shadowCurrents k a).length = k := by
  intro k
  induction k with
  | zero => intro a _; rfl
  | succ k ih =>
    intro a h
    simp only [shadowCurrents]
    rw [if_neg (by omega), List.length_append]
    have hh : shadowCount (hostOf a) = k := by
      have := hostOf_shadowCount a (by omega)
      omega
    rw [ih (hostOf a) hh]
    simp

theorem shadowCurrents_mem (doc : Doc) (hwf : doc.WF) :
    ∀ (fuel : Nat) (a : Addr), (doc.find? a).isSome = true →
      ∀ cur ∈ shadowCurrents fuel a,
        (doc.find? cur).isSome = true ∧ shadowCount cur ≠ 0 := by
  intro fuel
  induction fuel with
  | zero => intro a _ cur hcur; cases hcur
  | succ fuel ih =>
    intro a ha cur hcur
    by_cases hsc : shadowCount a = 0
    · simp only [shadowCurrents, hsc, if_pos] at hcur
      cases hcur
    · simp only [shadowCurrents, if_neg hsc] at hcur
      rcases List.mem_append.mp hcur with h | h
      · exact ih (hostOf a) (find?_hostOf_isSome doc hwf a ha) cur h
      · rw [List.mem_singleton] at h
        subst h
        exact ⟨ha, hsc⟩

/-- Claim C7 (amended): for a well-formed page and an element k ≥ 1 shadow
levels deep, the traced shadow context has length exactly k and consists of
one entry per host, outermost host first (the entry list is the walk's
current-element chain mapped through the entry builder, which records the
host's locator, tag, id, class and shadow mode plus the inner path); every
entry whose inner path carries no id short-circuit resolves, evaluated by
the child axis against its own shadow root, to exactly the recorded
descendant; an element whose root node is the main document gets a null
shadow context.  (An id short-circuit above the root's top level need not
resolve — see the counterexample.) -/
theorem shadow_context_trace (doc : Doc) (a : Addr) (k : Nat)
    (hwf : doc.WF) (ha : (doc.find? a).isSome = true)
    (hk : shadowCount a = k) (hpos : 0 < k) :
    (∀ b : Addr, shadowCount b = 0 → getShadowPath doc b = none) ∧
    ∃ entries, getShadowPath doc a = some entries ∧ entries.length = k ∧
      entries = (shadowCurrents k a).map (mkShadowEntry doc) ∧
      ∀ cur ∈ shadowCurrents k a,
        (generateInnerXPath doc cur).1 = none →
          evalInner doc (hostOf cur) (generateInnerXPath doc cur) = [cur] := by
  refine ⟨fun b hb => ?_, ?_⟩
  · unfold getShadowPath
    rw [if_pos hb]
  · have hmap := shadowWalk_eq_map doc hwf k a ha
    have hlen : (shadowCurrents k a).length = k := shadowCurrents_length k a hk
    refine ⟨(shadowCurrents k a).map (mkShadowEntry doc), ?_, by simp [hlen], rfl, ?_⟩
    · unfold getShadowPath
      rw [if_neg (by omega), hk, hmap]
      have hne : (shadowCurrents k a).map (mkShadowEntry doc) ≠ [] := by
        intro hnil
        have := congrArg List.length hnil
        rw [List.length_map, hlen] at this
        simp at this
        omega
      dsimp only
      cases hql : (shadowCurrents k a).map (mkShadowEntry doc) with
      | nil => exact absurd hql hne
      | cons e es => rfl
    · intro cur hcur hanchor
      obtain ⟨hfind, hsc⟩ := shadowCurrents_mem doc hwf k a ha cur hcur
      exact evalInner_roundtrip doc hwf cur hfind hsc hanchor

/-- A host with an open shadow root whose shadow tree is div > span#x: the
generated inner path for the span is the bare id form. -/
def c7Doc : Doc := ⟨[
  ⟨[], { tag := "HTML" }⟩,
  ⟨[.child 0], { tag := "BODY" }⟩,
  ⟨[.child 0, .child 0],
   { tag := "MY-HOST", attrs := [("id", "host1")], shadowMode := some "open" }⟩,
  ⟨[.child 0, .child 0, .shadow 0], { tag := "DIV" }⟩,
  ⟨[.child 0, .child 0, .shadow 0, .child 0], { tag := "SPAN", attrs := [("id", "x")] }⟩]⟩

def c7Host : Addr := [.child 0, .child 0]
def c7Elem : Addr := [.child 0, .child 0, .shadow 0, .child 0]

set_option maxRecDepth 8000 in
/-- Claim C7 counterexample: the span one level deep inside the shadow tree
gets innerXPath star-id "x" (the id short-circuit dropped the div step);
evaluated against its own shadow root by the child axis this resolves to no
node at all — not to the recorded descendant. -/
theorem shadow_inner_path_id_break_not_resolving :
    (getShadowPath c7Doc c7Elem).map (fun l => l.map (fun e => e.innerXPath)) =
      some [(some "x", [])] ∧
    renderInner (some "x", []) = "*[@id=\"x\"]" ∧
    evalInner c7Doc c7Host (generateInnerXPath c7Doc c7Elem) = [] ∧
    evalInner c7Doc c7Host (generateInnerXPath c7Doc c7Elem) ≠ [c7Elem] := by
  refine ⟨by decide, rfl, by decide, ?_⟩
  decide

/-- A host with an open shadow root holding a div with two spans: all inner
steps are indexed tag steps (no id anywhere inside the shadow tree). -/
def c7WitDoc : Doc := ⟨[
  ⟨[], { tag := "HTML" }⟩,
  ⟨[.child 0], { tag := "BODY" }⟩,
  ⟨[.child 0, .child 0],
   { tag := "MY-HOST", attrs := [("id", "host1")], shadowMode := some "open" }⟩,
  ⟨[.child 0, .child 0, .shadow 0], { tag := "DIV" }⟩,
  ⟨[.child 0, .child 0, .shadow 0, .child 0], { tag := "SPAN" }⟩,
  ⟨[.child 0, .child 0, .shadow 0, .child 1], { tag := "SPAN" }⟩]⟩

def c7WitElem : Addr := [.child 0, .child 0, .shadow 0, .child 1]

set_option maxRecDepth 8000 in
/-- Witness for the amended C7 at a one-level shadow page. -/
theorem shadow_context_trace_witness :
    (∀ b : Addr, shadowCount b = 0 → getShadowPath c7WitDoc b = none) ∧
    ∃ entries, getShadowPath c7WitDoc c7WitElem = some entries ∧ entries.length = 1 ∧
      entries = (shadowCurrents 1 c7WitElem).map (mkShadowEntry c7WitDoc) ∧
      ∀ cur ∈ shadowCurrents 1 c7WitElem,
        (generateInnerXPath c7WitDoc cur).1 = none →
          evalInner c7WitDoc (hostOf cur) (generateInnerXPath c7WitDoc cur) = [cur] :=
  shadow_context_trace c7WitDoc c7WitElem 1 (by decide) (by decide) (by decide) (by decide)
